import Mathlib

/-!
# Join resolution and type coercion (dsl_to_ir/join.rs)

A shallow embedding of the join-resolution stage of the lazy query planner:
`resolve_join`, its shape validation, duplicate-key check, scalar-key
materialization, per-pair key-type coercion, the coalesced-cast `HStack`
materialization, and the inequality-join upcast pass
(`build_upcast_node_list`, `ensure_lossless_binary_comparisons`).

Strings are modelled as lists of characters; the expression arena and the
plan arena are modelled as lists where a node handle is an index and
`add` appends at the end.  Stateful Rust functions become functions that
return their result together with the (possibly mutated) arenas, also on
error, matching the mutate-then-fail behaviour of the source.
-/

set_option linter.unusedVariables false

abbrev PlStr := List Char

def str (s : String) : PlStr := s.toList

/-! ## Data types and the numeric supertype oracle -/

inductive DataType where
  | boolean
  | int8
  | int16
  | int32
  | int64
  | uint8
  | uint16
  | uint32
  | uint64
  | float32
  | float64
  | string
  | date
  | null
deriving DecidableEq, Repr

/-- Signedness and bit width of an integer dtype. -/
def DataType.intInfo : DataType → Option (Bool × Nat)
  | .int8 => some (true, 8)
  | .int16 => some (true, 16)
  | .int32 => some (true, 32)
  | .int64 => some (true, 64)
  | .uint8 => some (false, 8)
  | .uint16 => some (false, 16)
  | .uint32 => some (false, 32)
  | .uint64 => some (false, 64)
  | _ => none

/-- Bit width of a float dtype. -/
def DataType.floatBits : DataType → Option Nat
  | .float32 => some 32
  | .float64 => some 64
  | _ => none

def DataType.is_primitive_numeric (dt : DataType) : Bool :=
  dt.intInfo.isSome || dt.floatBits.isSome

def signedOfBits : Nat → Option DataType
  | 8 => some .int8
  | 16 => some .int16
  | 32 => some .int32
  | 64 => some .int64
  | _ => none

def unsignedOfBits : Nat → Option DataType
  | 8 => some .uint8
  | 16 => some .uint16
  | 32 => some .uint32
  | 64 => some .uint64
  | _ => none

/-- Modelled from the spec: the numeric supertype oracle
`lossless_numeric_supertype(a, b) -> Option<DType>`
(`get_numeric_upcast_supertype_lossless` lives outside the given sources).
It returns a common numeric dtype both sides can be cast to losslessly:
narrower integer to wider integer of the same signedness, mixed signedness
to a signed integer wide enough for the unsigned side, integer to a float
with enough mantissa bits, float to wider float.  Dtypes that are already
equal need no widening, so the oracle returns `none` for them. -/
def get_numeric_upcast_supertype_lossless (l r : DataType) : Option DataType :=
  if l = r then none
  else
    match l.intInfo, r.intInfo with
    | some (sl, bl), some (sr, br) =>
      if sl = sr then
        if sl then signedOfBits (max bl br) else unsignedOfBits (max bl br)
      else
        let ub := if sl then br else bl
        let sb := if sl then bl else br
        signedOfBits (max sb (2 * ub))
    | some (_, bi), none =>
      match r.floatBits with
      | some 32 => if bi ≤ 16 then some .float32 else if bi ≤ 32 then some .float64 else none
      | some 64 => if bi ≤ 32 then some .float64 else none
      | _ => none
    | none, some (_, bi) =>
      match l.floatBits with
      | some 32 => if bi ≤ 16 then some .float32 else if bi ≤ 32 then some .float64 else none
      | some 64 => if bi ≤ 32 then some .float64 else none
      | _ => none
    | none, none =>
      match l.floatBits, r.floatBits with
      | some _, some _ => some .float64
      | _, _ => none

/-! ## Errors -/

inductive JoinError where
  | invalidOperation (msg : PlStr)
  | schemaMismatch (msg : PlStr)
  | columnNotFound (msg : PlStr)
  | computeError (msg : PlStr)
deriving DecidableEq, Repr

/-- Modelled from the spec: the general common-supertype oracle
`common_supertype(a, b) -> Result<DType>` (`try_get_supertype` lives outside
the given sources).  Equal dtypes are their own supertype; differing numeric
dtypes fall back to a lossy numeric supertype; otherwise there is none. -/
def try_get_supertype (l r : DataType) : Except JoinError DataType :=
  if l = r then .ok l
  else
    match get_numeric_upcast_supertype_lossless l r with
    | some dt => .ok dt
    | none =>
      if l.is_primitive_numeric && r.is_primitive_numeric then .ok .float64
      else .error (.schemaMismatch (str "could not determine supertype"))

/-! ## Operators, expressions, arenas -/

inductive Operator where
  | eq
  | notEq
  | lt
  | ltEq
  | gt
  | gtEq
  | plus
  | minus
  | logicalAnd
  | logicalOr
deriving DecidableEq, Repr

def Operator.is_comparison : Operator → Bool
  | .eq | .notEq | .lt | .ltEq | .gt | .gtEq => true
  | _ => false

inductive CastOptions where
  | strict
  | nonStrict
  | overflowing
deriving DecidableEq, Repr

/-- Origin tag of an expression relative to a join: which side(s) it references. -/
inductive ExprOrigin where
  | none
  | left
  | right
  | both
deriving DecidableEq, Repr

/-- The join-semilattice union of origins (the `|` operator on `ExprOrigin`). -/
def ExprOrigin.union : ExprOrigin → ExprOrigin → ExprOrigin
  | .none, o => o
  | o, .none => o
  | .left, .left => .left
  | .right, .right => .right
  | _, _ => .both

/-- Arena-resident expression nodes (`AExpr`); children are arena handles. -/
inductive AExpr where
  | column (name : PlStr)
  | literal (dtype : DataType)
  | cast (expr : Nat) (dtype : DataType) (options : CastOptions)
  | binaryExpr (left : Nat) (op : Operator) (right : Nat)
deriving DecidableEq, Repr

def AExpr.is_col : AExpr → Bool
  | .column _ => true
  | _ => false

abbrev ExprArena := List AExpr

def ExprArena.get (ea : ExprArena) (n : Nat) : AExpr := ea.getD n (.literal .null)

/-- `Arena::add`: append a node, its handle is the previous length. -/
def ExprArena.add (ea : ExprArena) (ae : AExpr) : ExprArena := ea ++ [ae]

/-- `Arena::replace`: single-slot in-place replacement. -/
def ExprArena.replace (ea : ExprArena) (n : Nat) (ae : AExpr) : ExprArena := ea.set n ae

/-! ## Schema -/

abbrev Schema := List (PlStr × DataType)

def Schema.contains (s : Schema) (n : PlStr) : Bool := s.any (fun p => p.1 == n)

def Schema.lookup (s : Schema) (n : PlStr) : Option DataType :=
  (s.find? (fun p => p.1 == n)).map Prod.snd

def Schema.names (s : Schema) : List PlStr := s.map Prod.fst

def Schema.with_column (s : Schema) (n : PlStr) (dt : DataType) : Schema :=
  if s.contains n then s.map (fun p => if p.1 == n then (n, dt) else p) else s ++ [(n, dt)]

/-! ## ExprIR and dtype / scalar / elementwise analyses -/

/-- The unit the resolver manipulates: an arena handle plus the output name,
which survives casts applied to the node. -/
structure ExprIR where
  node : Nat
  output_name : PlStr
deriving DecidableEq, Repr

def ExprIR.set_node (e : ExprIR) (n : Nat) : ExprIR := { e with node := n }

def ExprIR.set_alias (e : ExprIR) (n : PlStr) : ExprIR := { e with output_name := n }

/-- Dtype of an arena expression against a schema (`AExpr::get_type` /
`to_dtype`).  The fuel argument bounds the recursion depth; in a well-formed
arena every child handle is smaller than its parent, so fuel `n + 1`
suffices for node `n`. -/
def getDtypeFuel : Nat → ExprArena → Schema → Nat → Except JoinError DataType
  | 0, _, _, _ => .error (.computeError (str "expression depth limit"))
  | fuel + 1, ea, sch, n =>
    match ea.get n with
    | .column name =>
      match sch.lookup name with
      | some dt => .ok dt
      | none => .error (.columnNotFound name)
    | .literal dt => .ok dt
    | .cast _ dt _ => .ok dt
    | .binaryExpr l op r =>
      if op.is_comparison then .ok .boolean
      else do
        let lt ← getDtypeFuel fuel ea sch l
        let rt ← getDtypeFuel fuel ea sch r
        try_get_supertype lt rt

def getDtypeN (ea : ExprArena) (sch : Schema) (n : Nat) : Except JoinError DataType :=
  getDtypeFuel (n + 1) ea sch n

/-- Whether an arena expression is a scalar (row-independent) value. -/
def isScalarFuel : Nat → ExprArena → Nat → Bool
  | 0, _, _ => false
  | fuel + 1, ea, n =>
    match ea.get n with
    | .column _ => false
    | .literal _ => true
    | .cast e _ _ => isScalarFuel fuel ea e
    | .binaryExpr l _ r => isScalarFuel fuel ea l && isScalarFuel fuel ea r

def ExprIR.is_scalar (e : ExprIR) (ea : ExprArena) : Bool :=
  isScalarFuel (e.node + 1) ea e.node

/-- Whether an arena expression is elementwise (row-count and order
preserving).  All modelled node kinds are elementwise on elementwise
children. -/
def elementwiseFuel : Nat → ExprArena → Nat → Bool
  | 0, _, _ => false
  | fuel + 1, ea, n =>
    match ea.get n with
    | .column _ => true
    | .literal _ => true
    | .cast e _ _ => elementwiseFuel fuel ea e
    | .binaryExpr l _ r => elementwiseFuel fuel ea l && elementwiseFuel fuel ea r

def all_elementwise (es : List ExprIR) (ea : ExprArena) : Bool :=
  es.all (fun e => elementwiseFuel (e.node + 1) ea e.node)

/-! ## DSL expressions -/

/-- DSL-level (unresolved) expressions, as consumed by `resolve_join`. -/
inductive Expr where
  | column (name : PlStr)
  | literal (dtype : DataType)
  | alias (expr : Expr) (name : PlStr)
  | cast (expr : Expr) (dtype : DataType)
  | binaryExpr (left : Expr) (op : Operator) (right : Expr)
deriving DecidableEq, Repr

/-- `has_expr`: does any subexpression satisfy the predicate? -/
def has_expr : Expr → (Expr → Bool) → Bool
  | e@(.alias inner _), p => p e || has_expr inner p
  | e@(.cast inner _), p => p e || has_expr inner p
  | e@(.binaryExpr l _ r), p => p e || has_expr l p || has_expr r p
  | e, p => p e

/-! ## Join options -/

inductive JoinType where
  | inner
  | left
  | right
  | full
  | cross
  | semi
  | anti
  | asof (left_by right_by : Option (List PlStr))
  | ieJoin
deriving DecidableEq, Repr

def JoinType.is_cross : JoinType → Bool
  | .cross => true
  | _ => false

def JoinType.isIEJoin : JoinType → Bool
  | .ieJoin => true
  | _ => false

/-- Modelled from the spec: the coalesce option,
`{Coalesce, KeepSeparate}` (named as in the source). -/
inductive JoinCoalesce where
  | keepColumns
  | coalesceColumns
deriving DecidableEq, Repr

/-- Modelled from the spec: the key validation mode; the default
many-to-many mode is valid for every join kind. -/
inductive JoinValidation where
  | manyToMany
deriving DecidableEq, Repr

structure JoinOptionsIR where
  how : JoinType
  coalesce : JoinCoalesce
  validation : JoinValidation
deriving DecidableEq, Repr

/-- Modelled from the spec: whether coalescing of key columns is requested. -/
def JoinOptionsIR.should_coalesce (o : JoinOptionsIR) : Bool :=
  o.coalesce == .coalesceColumns

/-- Modelled from the spec: `validation.is_valid_join`; the modelled
many-to-many mode is valid for every join kind. -/
def JoinValidation.is_valid_join (_ : JoinValidation) (_ : JoinType) : Except JoinError Unit :=
  .ok ()

/-! ## Plan IR -/

inductive IR where
  | dataframeScan (schema : Schema)
  | hstack (input : Nat) (exprs : List ExprIR) (schema : Schema)
  | join (input_left input_right : Nat) (schema : Schema)
      (left_on right_on : List ExprIR) (options : JoinOptionsIR)
  | filter (input : Nat) (predicate : ExprIR)
  | simpleProjection (input : Nat) (columns : List PlStr) (schema : Schema)
deriving DecidableEq, Repr

abbrev LpArena := List IR

def LpArena.get (lp : LpArena) (n : Nat) : IR := lp.getD n (.dataframeScan [])

def LpArena.addN (lp : LpArena) (ir : IR) : Nat × LpArena := (lp.length, lp ++ [ir])

/-- Output schema of a plan node; `filter` recurses into its input, so a
fuel of `n + 1` suffices for node `n` in a well-formed arena. -/
def schemaOfFuel : Nat → LpArena → Nat → Schema
  | 0, _, _ => []
  | fuel + 1, lp, n =>
    match lp.get n with
    | .dataframeScan s => s
    | .hstack _ _ s => s
    | .join _ _ s _ _ _ => s
    | .simpleProjection _ _ s => s
    | .filter i _ => schemaOfFuel fuel lp i

def LpArena.schema_of (lp : LpArena) (n : Nat) : Schema := schemaOfFuel (n + 1) lp n

/-- Combined planning state: the expression arena and the plan arena. -/
structure PlanState where
  ea : ExprArena
  lp : LpArena
deriving DecidableEq, Repr

/-! ## Key-expression resolution (DSL to ExprIR) -/

/-- Modelled from the spec: the private marker the fresh temporary-column
names start with (`POLARS_TMP_PREFIX`, defined outside the given sources). -/
def polarsTmpMark : PlStr := str "_POLARS_TMP_"

/-- `get_tmp_name(i)`: the i-th fresh synthetic column name. -/
def get_tmp_name (i : Nat) : PlStr := polarsTmpMark ++ str (toString i)

/-- Modelled from the spec: `to_expr_ir_materialized_lit` (defined outside
the given sources) resolves a DSL expression against one schema, appending
arena nodes bottom-up and deriving the output name (column name, alias
name, or the literal name); a missing column is a ColumnNotFound error.
The arena is returned also on error, matching the mutate-then-fail
behaviour of the source. -/
def to_expr_ir_materialized_lit : Expr → Schema → ExprArena → (Except JoinError ExprIR) × ExprArena
  | .column name, sch, ea =>
    if sch.contains name then
      (.ok { node := ea.length, output_name := name }, ea ++ [.column name])
    else
      (.error (.columnNotFound name), ea)
  | .literal dt, _, ea =>
    (.ok { node := ea.length, output_name := str "literal" }, ea ++ [.literal dt])
  | .alias e name, sch, ea =>
    match to_expr_ir_materialized_lit e sch ea with
    | (.error er, ea1) => (.error er, ea1)
    | (.ok ir, ea1) => (.ok (ir.set_alias name), ea1)
  | .cast e dt, sch, ea =>
    match to_expr_ir_materialized_lit e sch ea with
    | (.error er, ea1) => (.error er, ea1)
    | (.ok ir, ea1) =>
      (.ok { node := ea1.length, output_name := ir.output_name }, ea1 ++ [.cast ir.node dt .nonStrict])
  | .binaryExpr l op r, sch, ea =>
    match to_expr_ir_materialized_lit l sch ea with
    | (.error er, ea1) => (.error er, ea1)
    | (.ok lir, ea1) =>
      match to_expr_ir_materialized_lit r sch ea1 with
      | (.error er, ea2) => (.error er, ea2)
      | (.ok rir, ea2) =>
        (.ok { node := ea2.length, output_name := lir.output_name },
          ea2 ++ [.binaryExpr lir.node op rir.node])

/-- Resolve a list of key expressions against one schema
(the `left_on` / `right_on` collect loops); stops at the first error but
keeps the arena nodes appended so far. -/
def resolveKeys : List Expr → Schema → ExprArena → (Except JoinError (List ExprIR)) × ExprArena
  | [], _, ea => (.ok [], ea)
  | e :: es, sch, ea =>
    match to_expr_ir_materialized_lit e sch ea with
    | (.error er, ea1) => (.error er, ea1)
    | (.ok ir, ea1) =>
      match resolveKeys es sch ea1 with
      | (.error er, ea2) => (.error er, ea2)
      | (.ok irs, ea2) => (.ok (ir :: irs), ea2)

/-! ## Shape validation -/

/-- `check_join_keys`: no Alias node may appear anywhere in a join key. -/
def check_join_keys (keys : List Expr) : Except JoinError Unit :=
  if keys.any (fun e => has_expr e fun e2 =>
      match e2 with
      | .alias _ _ => true
      | _ => false) then
    .error (.invalidOperation (str "alias is not allowed in a join key"))
  else
    .ok ()

/-- `validate_columns_in_input`: every named column must exist in the schema. -/
def validate_columns_in_input (cols : List PlStr) (sch : Schema) : Except JoinError Unit :=
  match cols.find? (fun c => !sch.contains c) with
  | some c => .error (.columnNotFound c)
  | none => .ok ()

/-- The asof-join by-column validation of `resolve_join`. -/
def checkAsofBy (how : JoinType) (schema_left schema_right : Schema) : Except JoinError Unit :=
  match how with
  | .asof left_by right_by =>
    match left_by, right_by with
    | none, none => .ok ()
    | some l, some r =>
      if l.length = r.length then do
        validate_columns_in_input l schema_left
        validate_columns_in_input r schema_right
      else
        .error (.invalidOperation (str "expected equal number of columns in by_left and by_right"))
    | _, _ => .error (.invalidOperation (str "expected both by_left and by_right to be set"))
  | _ => .ok ()

/-- The shape-validation prefix of `resolve_join` (its checks before key
resolution, in source order): cross joins take no keys; other joins need
keys; no alias in keys; non-column keys force-disable coalescing with a
warning when coalescing had been requested; validation mode check; asof
by-column check; equal key counts.  Returns the possibly-downgraded
options and the warnings emitted. -/
def checkShape (left_on right_on : List Expr) (options : JoinOptionsIR)
    (schema_left schema_right : Schema) : Except JoinError (JoinOptionsIR × List PlStr) :=
  if options.how.is_cross then
    if left_on.length + right_on.length = 0 then
      .ok (options, [])
    else
      .error (.invalidOperation (str "a cross join does not expect any join keys"))
  else
    if left_on.length + right_on.length = 0 then
      .error (.invalidOperation (str "expected join keys/predicates"))
    else
      match check_join_keys left_on with
      | .error e => .error e
      | .ok () =>
        match check_join_keys right_on with
        | .error e => .error e
        | .ok () =>
          let turn_off_coalesce := (left_on ++ right_on).any fun e =>
            has_expr e fun e2 =>
              match e2 with
              | .column _ => false
              | _ => true
          let warnings :=
            if turn_off_coalesce && options.coalesce == .coalesceColumns then
              [str "coalescing join requested but not all join keys are column references"]
            else []
          let options :=
            if turn_off_coalesce then { options with coalesce := .keepColumns } else options
          match options.validation.is_valid_join options.how with
          | .error e => .error e
          | .ok () =>
            match checkAsofBy options.how schema_left schema_right with
            | .error e => .error e
            | .ok () =>
              if left_on.length = right_on.length then
                .ok (options, warnings)
              else
                .error (.invalidOperation
                  (str "the number of columns given as join key should be equal"))

/-! ## Duplicate-key check -/

/-- The repeated-key-pair loop: insert each ordered name pair into the seen
set, failing when the pair was already present. -/
def dupCheckLoop : List (PlStr × PlStr) → List (PlStr × PlStr) → Except JoinError Unit
  | _, [] => .ok ()
  | seen, p :: ps =>
    if seen.contains p then
      .error (.invalidOperation (str "joining with repeated key names"))
    else
      dupCheckLoop (p :: seen) ps

/-- The duplicate-key check of `resolve_join`; `check` is false exactly for
inequality (IEJoin) joins, which skip the check. -/
def dupCheck (check : Bool) (left_on right_on : List ExprIR) : Except JoinError Unit :=
  if check then
    dupCheckLoop [] ((left_on.map ExprIR.output_name).zip (right_on.map ExprIR.output_name))
  else
    .ok ()

/-! ## Scalar-key materialization -/

/-- One side of the scalar-materialization loop: each scheduled `(index,
key)` gets a fresh temporary name, the key expression (re-aliased to that
name) is collected for an `HStack`, the running schema is extended with the
key dtype, a plain column reference to the new name is appended to the
arena, and the key at `index` is replaced by that reference. -/
def materializeSide : List (Nat × ExprIR) → Nat → Schema → ExprArena →
    (Except JoinError (List ExprIR × List (Nat × ExprIR) × Nat × Schema)) × ExprArena
  | [], count, sch, ea => (.ok ([], [], count, sch), ea)
  | (i, e) :: rest, count, sch, ea =>
    let tmp := get_tmp_name count
    let e2 := e.set_alias tmp
    match getDtypeN ea sch e2.node with
    | .error er => (.error er, ea)
    | .ok dt =>
      let sch2 := sch.with_column tmp dt
      let col := ea.length
      let ea2 := ea ++ [AExpr.column tmp]
      let repl : ExprIR := { node := col, output_name := tmp }
      match materializeSide rest (count + 1) sch2 ea2 with
      | (.error er, ea3) => (.error er, ea3)
      | (.ok (exprs, repls, count2, sch3), ea3) =>
        (.ok (e2 :: exprs, (i, repl) :: repls, count2, sch3), ea3)

/-- Replace the keys at the recorded indices by their fresh column
references (the `left_on[i] = ...` writes of the loop). -/
def applyReplacements (irs : List ExprIR) (repls : List (Nat × ExprIR)) : List ExprIR :=
  irs.mapIdx fun i ir =>
    match repls.find? (fun p => p.1 == i) with
    | some p => p.2
    | none => ir

/-- The scalar-key materialization step of `resolve_join`: when some key is
scalar, every scalar key (left side first, then right, sharing the fresh
name counter) is lifted into a temporary column appended via an `HStack` on
its side, and the key becomes a plain column reference.  Returns the new
key lists, input nodes, schemas, and whether scalars were present. -/
def materializeScalars (left_on right_on : List ExprIR) (input_left input_right : Nat)
    (schema_left schema_right : Schema) (ea : ExprArena) (lp : LpArena) :
    (Except JoinError
      (List ExprIR × List ExprIR × Nat × Nat × Schema × Schema × Bool)) × ExprArena × LpArena :=
  let has_scalars := (left_on ++ right_on).any fun e => e.is_scalar ea
  if has_scalars then
    let awl := (left_on.enum).filter fun p => p.2.is_scalar ea
    let awr := (right_on.enum).filter fun p => p.2.is_scalar ea
    match materializeSide awl 0 schema_left ea with
    | (.error er, ea1) => (.error er, ea1, lp)
    | (.ok (exprsL, replsL, count1, schemaLN), ea1) =>
      match materializeSide awr count1 schema_right ea1 with
      | (.error er, ea2) => (.error er, ea2, lp)
      | (.ok (exprsR, replsR, _, schemaRN), ea2) =>
        let (left_on2, input_left2, schema_left2, lp1) :=
          if awl.isEmpty then (left_on, input_left, schema_left, lp)
          else
            let (n, lp1) := lp.addN (IR.hstack input_left exprsL schemaLN)
            (applyReplacements left_on replsL, n, schemaLN, lp1)
        let (right_on2, input_right2, schema_right2, lp2) :=
          if awr.isEmpty then (right_on, input_right, schema_right, lp1)
          else
            let (n, lp2) := lp1.addN (IR.hstack input_right exprsR schemaRN)
            (applyReplacements right_on replsR, n, schemaRN, lp2)
        (.ok (left_on2, right_on2, input_left2, input_right2,
          schema_left2, schema_right2, true), ea2, lp2)
  else
    (.ok (left_on, right_on, input_left, input_right,
      schema_left, schema_right, false), ea, lp)

/-! ## Per-pair key type coercion -/

/-- The per-pair body of the key-coercion loop of `resolve_join`: compute
both key dtypes; if a lossless numeric supertype exists, append overflowing
casts of both keys to it, and either set them inline on the keys or (for a
coalescing full join, `key_cols_coalesced`) keep the keys unchanged and
collect the cast copies for later `HStack` materialization, requiring both
keys to be bare columns; without a lossless supertype the dtypes must be
exactly equal, otherwise the join keys mismatch.  Returns the two keys and
the collected left/right cast columns. -/
def coercePair (key_cols_coalesced : Bool) (schema_left schema_right : Schema)
    (lnode rnode : ExprIR) (ea : ExprArena) :
    (Except JoinError (ExprIR × ExprIR × List ExprIR × List ExprIR)) × ExprArena :=
  match getDtypeN ea schema_left lnode.node with
  | .error er => (.error er, ea)
  | .ok ltype =>
    match getDtypeN ea schema_right rnode.node with
    | .error er => (.error er, ea)
    | .ok rtype =>
      match get_numeric_upcast_supertype_lossless ltype rtype with
      | some dtype =>
        let casted_l := ea.length
        let ea1 := ea ++ [AExpr.cast lnode.node dtype .overflowing]
        let casted_r := ea1.length
        let ea2 := ea1 ++ [AExpr.cast rnode.node dtype .overflowing]
        if key_cols_coalesced then
          if (ea2.get lnode.node).is_col && (ea2.get rnode.node).is_col then
            (.ok (lnode, rnode, [lnode.set_node casted_l], [rnode.set_node casted_r]), ea2)
          else
            (.error (.schemaMismatch
              (str "can only coalesce full join if join keys are column expressions")), ea2)
        else
          (.ok (lnode.set_node casted_l, rnode.set_node casted_r, [], []), ea2)
      | none =>
        if ltype = rtype then
          (.ok (lnode, rnode, [], []), ea)
        else
          (.error (.schemaMismatch (str "datatypes of join keys do not match")), ea)

/-- The key-coercion loop of `resolve_join` over the zipped key pairs. -/
def coerceKeys (key_cols_coalesced : Bool) (schema_left schema_right : Schema) :
    List ExprIR → List ExprIR → ExprArena →
    (Except JoinError (List ExprIR × List ExprIR × List ExprIR × List ExprIR)) × ExprArena
  | [], rs, ea => (.ok ([], rs, [], []), ea)
  | ls, [], ea => (.ok (ls, [], [], []), ea)
  | l :: ls, r :: rs, ea =>
    match coercePair key_cols_coalesced schema_left schema_right l r ea with
    | (.error er, ea1) => (.error er, ea1)
    | (.ok (l2, r2, awl1, awr1), ea1) =>
      match coerceKeys key_cols_coalesced schema_left schema_right ls rs ea1 with
      | (.error er, ea2) => (.error er, ea2)
      | (.ok (ls2, rs2, awl2, awr2), ea2) =>
        (.ok (l2 :: ls2, r2 :: rs2, awl1 ++ awl2, awr1 ++ awr2), ea2)

/-! ## Schema merge, coalesced-cast materialization, and the final nodes -/

/-- Modelled from the spec: `det_join_schema` (defined outside the given
sources) merges the final left and right schemas (spec 4.4): semi and anti
joins keep the left schema; otherwise the right schema follows the left
one, with the right key columns dropped when coalescing is requested on a
non-cross join, and the external suffixing convention applied to remaining
name collisions. -/
def det_join_schema (schema_left schema_right : Schema)
    (left_on right_on : List ExprIR) (options : JoinOptionsIR) : Except JoinError Schema :=
  match options.how with
  | .semi => .ok schema_left
  | .anti => .ok schema_left
  | _ =>
    let keep_right : Schema :=
      if options.should_coalesce && !options.how.is_cross then
        schema_right.filter fun p => !(right_on.map ExprIR.output_name).contains p.1
      else schema_right
    .ok (keep_right.foldl
      (fun acc p =>
        if Schema.contains schema_left p.1 then acc ++ [(p.1 ++ str "_right", p.2)]
        else acc ++ [p])
      schema_left)

/-- The coalesced-cast materialization of `resolve_join`: only when the
join is a coalescing full join (`key_cols_coalesced`), the collected cast
columns are appended as an `HStack` on each side (sides with no casts are
left untouched). -/
def addCoalesceHStacks (key_cols_coalesced : Bool) (awl awr : List ExprIR)
    (input_left input_right : Nat) (schema_left schema_right : Schema) (lp : LpArena) :
    Nat × Nat × LpArena :=
  if key_cols_coalesced then
    let (il, lp1) :=
      if awl.isEmpty then (input_left, lp)
      else lp.addN (IR.hstack input_left awl schema_left)
    let (ir2, lp2) :=
      if awr.isEmpty then (input_right, lp1)
      else lp1.addN (IR.hstack input_right awr schema_right)
    (il, ir2, lp2)
  else
    (input_left, input_right, lp)

/-- `IRBuilder::project_simple`: build a projection onto the named columns
of the input schema, in the given order. -/
def project_simple (input : Nat) (names : List PlStr) (input_schema : Schema) :
    Except JoinError IR :=
  if names.all (fun n => input_schema.contains n) then
    .ok (IR.simpleProjection input names
      (names.filterMap fun n => (input_schema.lookup n).map fun dt => (n, dt)))
  else
    .error (.columnNotFound (str "projection column not found"))

/-! ## The join resolver -/

/-- Modelled from the spec: the optimizer hook is an idempotent,
type-preserving, side-effect-free simplification pass over freshly built
key expressions; it is modelled as the identity on the arenas. -/
def optimizerHook (_ : List ExprIR) (ea : ExprArena) (lp : LpArena) (_ : Nat) (_ : Bool) :
    ExprArena × LpArena := (ea, lp)

/-- `resolve_join` for already-lowered inputs and an empty predicate list
(the equality-join path; lowering of unresolved sub-plans and the
inequality-join dispatch live outside this function).  Returns the result
handle and the join-node handle (equal unless a projection strips
temporary scalar-key columns), the final planning state (also on error,
matching the mutate-then-fail behaviour of the source), and the warnings
emitted. -/
def resolve_join (input_left input_right : Nat) (left_on right_on : List Expr)
    (options0 : JoinOptionsIR) (st : PlanState) :
    (Except JoinError (Nat × Nat)) × PlanState × List PlStr :=
  let schema_left := st.lp.schema_of input_left
  let schema_right := st.lp.schema_of input_right
  match checkShape left_on right_on options0 schema_left schema_right with
  | .error e => (.error e, st, [])
  | .ok (options, warnings) =>
    match resolveKeys left_on schema_left st.ea with
    | (.error e, ea1) => (.error e, { st with ea := ea1 }, warnings)
    | (.ok left_on1, ea1) =>
      match resolveKeys right_on schema_right ea1 with
      | (.error e, ea2) => (.error e, { st with ea := ea2 }, warnings)
      | (.ok right_on1, ea2) =>
        match dupCheck (!options.how.isIEJoin) left_on1 right_on1 with
        | .error e => (.error e, { st with ea := ea2 }, warnings)
        | .ok () =>
          let (ea2, lp0) := optimizerHook left_on1 ea2 st.lp input_left true
          let (ea2, lp0) := optimizerHook right_on1 ea2 lp0 input_right true
          match materializeScalars left_on1 right_on1 input_left input_right
              schema_left schema_right ea2 lp0 with
          | (.error e, ea3, lp3) => (.error e, { ea := ea3, lp := lp3 }, warnings)
          | (.ok (left_on2, right_on2, input_left2, input_right2,
              schema_left2, schema_right2, has_scalars), ea3, lp3) =>
            let key_cols_coalesced :=
              options.should_coalesce && options.how == JoinType.full
            match coerceKeys key_cols_coalesced schema_left2 schema_right2
                left_on2 right_on2 ea3 with
            | (.error e, ea4) => (.error e, { ea := ea4, lp := lp3 }, warnings)
            | (.ok (left_on3, right_on3, awl, awr), ea4) =>
              if all_elementwise left_on3 ea4 && all_elementwise right_on3 ea4 then
                match det_join_schema schema_left2 schema_right2 left_on3 right_on3 options with
                | .error e => (.error e, { ea := ea4, lp := lp3 }, warnings)
                | .ok join_schema =>
                  let (input_left3, input_right3, lp4) :=
                    addCoalesceHStacks key_cols_coalesced awl awr input_left2 input_right2
                      schema_left2 schema_right2 lp3
                  let (join_node, lp5) := lp4.addN
                    (IR.join input_left3 input_right3 join_schema left_on3 right_on3 options)
                  if has_scalars then
                    let names := join_schema.names.filter fun n => !polarsTmpMark.isPrefixOf n
                    match project_simple join_node names join_schema with
                    | .error e => (.error e, { ea := ea4, lp := lp5 }, warnings)
                    | .ok ir =>
                      let (select_node, lp6) := lp5.addN ir
                      (.ok (select_node, join_node), { ea := ea4, lp := lp6 }, warnings)
                  else
                    (.ok (join_node, join_node), { ea := ea4, lp := lp5 }, warnings)
              else
                (.error (.invalidOperation (str "all join key expressions must be elementwise")),
                  { ea := ea4, lp := lp3 }, warnings)

/-! ## Inequality-join (join_where) upcast pass -/

/-- `build_upcast_node_list`: classify a predicate subtree by origin
(column in the pre-merge left schema: Left; otherwise in the merged
schema: Right; literal: None) while scheduling lossless upcasts.  At a
comparison whose operands come from exactly one Left and one Right origin
and whose dtypes differ, the target dtype is the lossless numeric
supertype when either side is numeric (an error when none exists) and the
general common supertype otherwise, and every operand whose dtype differs
from the target is scheduled in `to_replace`.  The fuel argument bounds
recursion depth; in a well-formed arena fuel `n + 1` suffices for node
`n`. -/
def build_upcast_node_list : Nat → Nat → Schema → Schema → ExprArena →
    List (Nat × DataType) → Except JoinError (ExprOrigin × List (Nat × DataType))
  | 0, _, _, _, _, _ => .error (.computeError (str "expression depth limit"))
  | fuel + 1, node, schema_left, schema_merged, ea, to_replace =>
    match ea.get node with
    | .column name =>
      if schema_left.contains name then .ok (.left, to_replace)
      else if schema_merged.contains name then .ok (.right, to_replace)
      else .error (.columnNotFound name)
    | .literal _ => .ok (.none, to_replace)
    | .cast e _ _ => build_upcast_node_list fuel e schema_left schema_merged ea to_replace
    | .binaryExpr l op r =>
      match build_upcast_node_list fuel l schema_left schema_merged ea to_replace with
      | .error e => .error e
      | .ok (left_origin, tr1) =>
        match build_upcast_node_list fuel r schema_left schema_merged ea tr1 with
        | .error e => .error e
        | .ok (right_origin, tr2) =>
          if op.is_comparison then
            match left_origin, right_origin with
            | .left, .right | .right, .left =>
              match getDtypeN ea schema_merged l with
              | .error e => .error e
              | .ok dtype_left =>
                match getDtypeN ea schema_merged r with
                | .error e => .error e
                | .ok dtype_right =>
                  if dtype_left = dtype_right then
                    .ok (left_origin.union right_origin, tr2)
                  else
                    match
                      (if dtype_left.is_primitive_numeric ||
                          dtype_right.is_primitive_numeric then
                        match get_numeric_upcast_supertype_lossless dtype_left dtype_right with
                        | some dt => .ok dt
                        | none => .error (JoinError.schemaMismatch
                            (str "join_where cannot compare the two dtypes"))
                      else try_get_supertype dtype_left dtype_right) with
                    | .error e => .error e
                    | .ok dt =>
                      let tr3 :=
                        if dt ≠ dtype_left ∧ dt ≠ dtype_right then
                          tr2 ++ [(l, dt), (r, dt)]
                        else if dt ≠ dtype_left then tr2 ++ [(l, dt)]
                        else if dt ≠ dtype_right then tr2 ++ [(r, dt)]
                        else tr2
                      .ok (left_origin.union right_origin, tr3)
            | _, _ => .ok (left_origin.union right_origin, tr2)
          else
            .ok (left_origin.union right_origin, tr2)

/-- The replacement loop of `ensure_lossless_binary_comparisons`: for each
scheduled `(node, dtype)`, duplicate the current definition of `node` to a
fresh handle and replace `node` in place by an overflowing cast of that
fresh handle to `dtype`. -/
def applyUpcasts : List (Nat × DataType) → ExprArena → ExprArena
  | [], ea => ea
  | (expr, dtype) :: rest, ea =>
    let old_expr := ea.length
    let ea1 := ea ++ [ea.get expr]
    let ea2 := ea1.set expr (AExpr.cast old_expr dtype .overflowing)
    applyUpcasts rest ea2

/-- `ensure_lossless_binary_comparisons`: build the upcast schedule for the
predicate rooted at `node`, then drain it, replacing each scheduled node in
place by a cast. -/
def ensure_lossless_binary_comparisons (node : Nat) (schema_left schema_merged : Schema)
    (ea : ExprArena) (upcast_exprs : List (Nat × DataType)) : Except JoinError ExprArena :=
  match build_upcast_node_list (node + 1) node schema_left schema_merged ea upcast_exprs with
  | .error e => .error e
  | .ok (_, to_replace) => .ok (applyUpcasts to_replace ea)

/-- The `ExprIR`s produced by resolving a list of bare column keys starting
at arena index `start` (used to characterize `resolveKeys` on column
expressions). -/
def buildColIRs (start : Nat) : List PlStr → List ExprIR
  | [] => []
  | n :: ns => { node := start, output_name := n } :: buildColIRs (start + 1) ns

/-! # Helper lemmas -/

theorem ExprArena.get_append_lt (ea : ExprArena) (l2 : List AExpr) (n : Nat)
    (h : n < ea.length) : (ea ++ l2).get n = ea.get n := by
  simp [ExprArena.get, List.getD_eq_getElem?_getD, List.getElem?_append, h]

theorem ExprArena.get_append_self (ea : ExprArena) (a : AExpr) :
    (ea ++ [a]).get ea.length = a := by
  simp [ExprArena.get, List.getD_eq_getElem?_getD]

theorem ExprArena.get_set_self (ea : ExprArena) (a : AExpr) (n : Nat) (h : n < ea.length) :
    ExprArena.get (ea.set n a) n = a := by
  simp [ExprArena.get, List.getD_eq_getElem?_getD, List.getElem?_set_self, h]

theorem ExprArena.get_set_ne (ea : ExprArena) (a : AExpr) (n m : Nat) (h : n ≠ m) :
    ExprArena.get (ea.set n a) m = ea.get m := by
  simp [ExprArena.get, List.getD_eq_getElem?_getD, List.getElem?_set_ne h]

theorem isPrefixOf_append_self (p s : PlStr) : p.isPrefixOf (p ++ s) = true :=
  List.isPrefixOf_iff_prefix.mpr (List.prefix_append p s)

/-- Already-equal dtypes admit no further lossless widening. -/
theorem upcast_lossless_self (dt : DataType) :
    get_numeric_upcast_supertype_lossless dt dt = none := by
  simp [get_numeric_upcast_supertype_lossless]

/-! # Claim C9: the in-place cast replacement batch -/

/-- C9, counterexample: replacing the same handle twice does NOT yield the
same arena content as replacing it once.  On the one-node arena holding
`column a`, a single replacement of handle 0 by a cast to Int64 gives a
two-node arena, while scheduling the same (node, dtype) pair twice gives a
three-node arena whose handle 0 is a cast of a cast. -/
theorem applyUpcasts_not_idempotent :
    applyUpcasts [(0, .int64), (0, .int64)] [.column (str "a")] ≠
      applyUpcasts [(0, .int64)] [.column (str "a")] := by
  decide

/-- C9, amended: the batch loop replaces each target node once per list
entry; scheduling the same (node, dtype) pair twice is harmless only in
the weaker sense that the handle still holds an overflowing cast to the
target dtype whose operand chain reaches the original definition — the
arena content is not identical to a single replacement (the arena gains an
extra duplicated node and the handle holds a nested cast). -/
theorem applyUpcasts_twice_nested (h : Nat) (dt : DataType) (ea : ExprArena)
    (hh : h < ea.length) :
    (applyUpcasts [(h, dt)] ea).length = ea.length + 1 ∧
    ExprArena.get (applyUpcasts [(h, dt)] ea) h = .cast ea.length dt .overflowing ∧
    ExprArena.get (applyUpcasts [(h, dt)] ea) ea.length = ea.get h ∧
    (applyUpcasts [(h, dt), (h, dt)] ea).length = ea.length + 2 ∧
    ExprArena.get (applyUpcasts [(h, dt), (h, dt)] ea) h =
      .cast (ea.length + 1) dt .overflowing ∧
    ExprArena.get (applyUpcasts [(h, dt), (h, dt)] ea) (ea.length + 1) =
      .cast ea.length dt .overflowing ∧
    ExprArena.get (applyUpcasts [(h, dt), (h, dt)] ea) ea.length = ea.get h := by
  have hne : h ≠ ea.length := Nat.ne_of_lt hh
  have hlt1 : h < (ea ++ [ea.get h]).length := by
    simp only [List.length_append, List.length_cons, List.length_nil]
    omega
  have hA1len : ((ea ++ [ea.get h]).set h (AExpr.cast ea.length dt .overflowing)).length
      = ea.length + 1 := by
    simp [List.length_set]
  -- the arena after the first replacement
  set A1 := (ea ++ [ea.get h]).set h (AExpr.cast ea.length dt .overflowing) with hA1
  have hA1get : ExprArena.get A1 h = AExpr.cast ea.length dt .overflowing := by
    rw [hA1]
    exact ExprArena.get_set_self _ _ _ hlt1
  have hA1old : ExprArena.get A1 ea.length = ea.get h := by
    rw [hA1, ExprArena.get_set_ne _ _ _ _ hne, ExprArena.get_append_self]
  have honce : applyUpcasts [(h, dt)] ea = A1 := by
    simp [applyUpcasts, hA1]
  have htwice : applyUpcasts [(h, dt), (h, dt)] ea =
      (A1 ++ [ExprArena.get A1 h]).set h (AExpr.cast A1.length dt .overflowing) := by
    simp [applyUpcasts, hA1]
  have hlen2 : h < (A1 ++ [ExprArena.get A1 h]).length := by
    simp only [List.length_append, List.length_cons, List.length_nil, hA1len]
    omega
  have hne2 : h ≠ ea.length + 1 := by omega
  refine ⟨by rw [honce, hA1len], by rw [honce]; exact hA1get, by rw [honce]; exact hA1old,
    ?_, ?_, ?_, ?_⟩
  · rw [htwice]
    simp [List.length_set, hA1len]
  · rw [htwice, hA1len]
    exact ExprArena.get_set_self _ _ _ hlen2
  · rw [htwice, ExprArena.get_set_ne _ _ _ _ hne2]
    have : ea.length + 1 = A1.length := hA1len.symm
    rw [this, ExprArena.get_append_self, hA1get]
  · rw [htwice, ExprArena.get_set_ne _ _ _ _ hne]
    rw [ExprArena.get_append_lt _ _ _ (by omega), hA1old]

/-- C9 witness: the amended statement evaluated at a concrete arena. -/
theorem applyUpcasts_twice_nested_witness :
    (applyUpcasts [(0, .int64)] [.column (str "a")]).length = 2 ∧
    ExprArena.get (applyUpcasts [(0, .int64), (0, .int64)] [.column (str "a")]) 0 =
      .cast 2 .int64 .overflowing := by
  have h := applyUpcasts_twice_nested 0 .int64 [.column (str "a")] (by decide)
  exact ⟨h.1, h.2.2.2.2.1⟩

/-! # Claim C4: cross joins take no keys -/

/-- C4: a cross join with any non-empty key list fails with an
InvalidOperation error, and the planning state (both arenas) is returned
unchanged: the error precedes every arena append of the resolver.  (Inputs
are modelled as already-lowered plan handles, per spec 4.1 step 2.) -/
theorem resolve_join_cross_with_keys (input_left input_right : Nat)
    (left_on right_on : List Expr) (options : JoinOptionsIR) (st : PlanState)
    (hcross : options.how.is_cross = true) (hkeys : left_on ++ right_on ≠ []) :
    resolve_join input_left input_right left_on right_on options st =
      (.error (.invalidOperation (str "a cross join does not expect any join keys")), st, []) := by
  have hlen : ¬(left_on.length + right_on.length = 0) := by
    intro h
    apply hkeys
    have h1 : left_on.length = 0 := by omega
    have h2 : right_on.length = 0 := by omega
    rw [List.length_eq_zero.mp h1, List.length_eq_zero.mp h2]
    rfl
  have hcs : checkShape left_on right_on options (st.lp.schema_of input_left)
      (st.lp.schema_of input_right) =
      .error (.invalidOperation (str "a cross join does not expect any join keys")) := by
    unfold checkShape
    rw [hcross]
    simp [hlen]
  unfold resolve_join
  simp only [hcs]

/-- C4 witness: a concrete cross join with one left key. -/
theorem resolve_join_cross_with_keys_witness :
    resolve_join 0 1 [.column (str "a")] [] 
      { how := .cross, coalesce := .keepColumns, validation := .manyToMany }
      { ea := [], lp := [.dataframeScan [(str "a", .int32)], .dataframeScan []] } =
      (.error (.invalidOperation (str "a cross join does not expect any join keys")),
        { ea := [], lp := [.dataframeScan [(str "a", .int32)], .dataframeScan []] }, []) :=
  resolve_join_cross_with_keys 0 1 [.column (str "a")] []
    { how := .cross, coalesce := .keepColumns, validation := .manyToMany }
    { ea := [], lp := [.dataframeScan [(str "a", .int32)], .dataframeScan []] }
    (by decide) (by decide)

/-! # Claim C1: per-pair key type coercion -/

/-- C1: for an equality-join key pair (generic, non-coalescing path), the
resolver computes both key dtypes against the given (possibly extended by
scalar lifting) left and right schemas; if a lossless numeric widening
exists the two keys are both wrapped in an overflow-permitting cast to the
common supertype (two fresh cast nodes appended to the arena, keys
repointed at them); otherwise a SchemaMismatch error is returned unless
the two dtypes are exactly equal, in which case the keys and the arena are
left unchanged. -/
theorem coercePair_trichotomy (schema_left schema_right : Schema) (l r : ExprIR)
    (ea : ExprArena) (ltype rtype : DataType)
    (hl : getDtypeN ea schema_left l.node = .ok ltype)
    (hr : getDtypeN ea schema_right r.node = .ok rtype) :
    (∀ dt, get_numeric_upcast_supertype_lossless ltype rtype = some dt →
      coercePair false schema_left schema_right l r ea =
        (.ok (l.set_node ea.length, r.set_node (ea.length + 1), [], []),
          ea ++ [.cast l.node dt .overflowing, .cast r.node dt .overflowing])) ∧
    (get_numeric_upcast_supertype_lossless ltype rtype = none → ltype = rtype →
      coercePair false schema_left schema_right l r ea = (.ok (l, r, [], []), ea)) ∧
    (get_numeric_upcast_supertype_lossless ltype rtype = none → ltype ≠ rtype →
      coercePair false schema_left schema_right l r ea =
        (.error (.schemaMismatch (str "datatypes of join keys do not match")), ea)) := by
  refine ⟨?_, ?_, ?_⟩
  · intro dt hdt
    unfold coercePair
    simp only [hl, hr, hdt]
    simp
  · intro hdt heq
    unfold coercePair
    simp only [hl, hr, hdt]
    simp [heq]
  · intro hdt hne
    unfold coercePair
    simp only [hl, hr, hdt]
    simp [hne]

/-- C1 witness: an Int32 key against an Int64 key is upcast to Int64 on
both sides (overflowing casts appended to the arena). -/
theorem coercePair_trichotomy_witness :
    coercePair false [(str "a", .int32)] [(str "b", .int64)]
      { node := 0, output_name := str "a" } { node := 1, output_name := str "b" }
      [.column (str "a"), .column (str "b")] =
      (.ok ({ node := 2, output_name := str "a" }, { node := 3, output_name := str "b" }, [], []),
        [.column (str "a"), .column (str "b"),
          .cast 0 .int64 .overflowing, .cast 1 .int64 .overflowing]) :=
  (coercePair_trichotomy [(str "a", .int32)] [(str "b", .int64)]
    { node := 0, output_name := str "a" } { node := 1, output_name := str "b" }
    [.column (str "a"), .column (str "b")] .int32 .int64
    (by rfl) (by rfl)).1 .int64 (by rfl)

/-! # Claim C2: inequality-join upcast scheduling -/

/-- C2: at a comparison `BinaryOp` node of a join_where predicate whose two
operands have origins Left and Right in either order and whose dtypes
differ, a target dtype is computed — the lossless numeric supertype when
either operand dtype is numeric (an error when none exists), the general
common supertype otherwise — and exactly the operands whose dtype differs
from the target are scheduled (left first) for an in-place cast
replacement; with equal dtypes, or when the operand origins are not
exactly one Left and one Right (same-table comparisons, literal-involving
operands), nothing is scheduled at this node. -/
theorem build_upcast_comparison_step
    (fuel n : Nat) (schema_left schema_merged : Schema) (ea : ExprArena)
    (acc : List (Nat × DataType)) (l r : Nat) (op : Operator)
    (lo ro : ExprOrigin) (tr1 tr2 : List (Nat × DataType)) (dtl dtr : DataType)
    (hn : ea.get n = .binaryExpr l op r)
    (hcmp : op.is_comparison = true)
    (hL : build_upcast_node_list fuel l schema_left schema_merged ea acc = .ok (lo, tr1))
    (hR : build_upcast_node_list fuel r schema_left schema_merged ea tr1 = .ok (ro, tr2))
    (hdl : getDtypeN ea schema_merged l = .ok dtl)
    (hdr : getDtypeN ea schema_merged r = .ok dtr) :
    (((lo = .left ∧ ro = .right) ∨ (lo = .right ∧ ro = .left)) →
      (dtl = dtr →
        build_upcast_node_list (fuel + 1) n schema_left schema_merged ea acc =
          .ok (lo.union ro, tr2)) ∧
      (dtl ≠ dtr → (dtl.is_primitive_numeric || dtr.is_primitive_numeric) = true →
        (∀ dt, get_numeric_upcast_supertype_lossless dtl dtr = some dt →
          build_upcast_node_list (fuel + 1) n schema_left schema_merged ea acc =
            .ok (lo.union ro, tr2 ++ (if dt = dtl then [] else [(l, dt)]) ++
              (if dt = dtr then [] else [(r, dt)]))) ∧
        (get_numeric_upcast_supertype_lossless dtl dtr = none →
          build_upcast_node_list (fuel + 1) n schema_left schema_merged ea acc =
            .error (.schemaMismatch (str "join_where cannot compare the two dtypes")))) ∧
      (dtl ≠ dtr → (dtl.is_primitive_numeric || dtr.is_primitive_numeric) = false →
        (∀ dt, try_get_supertype dtl dtr = .ok dt →
          build_upcast_node_list (fuel + 1) n schema_left schema_merged ea acc =
            .ok (lo.union ro, tr2 ++ (if dt = dtl then [] else [(l, dt)]) ++
              (if dt = dtr then [] else [(r, dt)]))) ∧
        (∀ e, try_get_supertype dtl dtr = .error e →
          build_upcast_node_list (fuel + 1) n schema_left schema_merged ea acc =
            .error e))) ∧
    (¬((lo = .left ∧ ro = .right) ∨ (lo = .right ∧ ro = .left)) →
      build_upcast_node_list (fuel + 1) n schema_left schema_merged ea acc =
        .ok (lo.union ro, tr2)) := by
  have hbase : build_upcast_node_list (fuel + 1) n schema_left schema_merged ea acc =
      (match lo, ro with
      | .left, .right | .right, .left =>
        if dtl = dtr then
          .ok (lo.union ro, tr2)
        else
          match
            (if dtl.is_primitive_numeric || dtr.is_primitive_numeric then
              match get_numeric_upcast_supertype_lossless dtl dtr with
              | some dt => .ok dt
              | none => .error (JoinError.schemaMismatch
                  (str "join_where cannot compare the two dtypes"))
            else try_get_supertype dtl dtr) with
          | .error e => .error e
          | .ok dt =>
            let tr3 :=
              if dt ≠ dtl ∧ dt ≠ dtr then tr2 ++ [(l, dt), (r, dt)]
              else if dt ≠ dtl then tr2 ++ [(l, dt)]
              else if dt ≠ dtr then tr2 ++ [(r, dt)]
              else tr2
            .ok (lo.union ro, tr3)
      | _, _ => .ok (lo.union ro, tr2)) := by
    unfold build_upcast_node_list
    simp only [hn, hL, hR, hcmp, hdl, hdr, if_true]
    cases lo <;> cases ro <;> rfl
  constructor
  · intro hor
    have hsched : ∀ dt : DataType, dtl ≠ dtr →
        (if dt ≠ dtl ∧ dt ≠ dtr then tr2 ++ [(l, dt), (r, dt)]
          else if dt ≠ dtl then tr2 ++ [(l, dt)]
          else if dt ≠ dtr then tr2 ++ [(r, dt)]
          else tr2) =
        tr2 ++ (if dt = dtl then [] else [(l, dt)]) ++ (if dt = dtr then [] else [(r, dt)]) := by
      intro dt hne
      by_cases h1 : dt = dtl <;> by_cases h2 : dt = dtr <;> simp_all
    refine ⟨?_, ?_, ?_⟩
    · intro heq
      rcases hor with ⟨h1, h2⟩ | ⟨h1, h2⟩ <;> subst h1 <;> subst h2 <;>
        simp only [hbase, if_pos heq]
    · intro hne hnum
      constructor
      · intro dt hdt
        rcases hor with ⟨h1, h2⟩ | ⟨h1, h2⟩ <;> subst h1 <;> subst h2 <;>
          simp only [hbase, if_neg hne, hnum, if_true, hdt, hsched dt hne]
      · intro hdt
        rcases hor with ⟨h1, h2⟩ | ⟨h1, h2⟩ <;> subst h1 <;> subst h2 <;>
          simp only [hbase, if_neg hne, hnum, if_true, hdt]
    · intro hne hnum
      constructor
      · intro dt hdt
        rcases hor with ⟨h1, h2⟩ | ⟨h1, h2⟩ <;> subst h1 <;> subst h2 <;>
          simp only [hbase, if_neg hne, hnum, Bool.false_eq_true, if_false, hdt,
            hsched dt hne]
      · intro e he
        rcases hor with ⟨h1, h2⟩ | ⟨h1, h2⟩ <;> subst h1 <;> subst h2 <;>
          simp only [hbase, if_neg hne, hnum, Bool.false_eq_true, if_false, he]
  · intro hnor
    rw [hbase]
    cases lo <;> cases ro <;> simp_all

/-- C2 witness: for the predicate `a < b` with `a : Int32` from the left
table and `b : Int64` from the right table, the pass schedules exactly the
cast of `a` to Int64 and classifies the comparison as Both. -/
theorem build_upcast_comparison_step_witness :
    build_upcast_node_list 3 2 [(str "a", .int32)]
      [(str "a", .int32), (str "b", .int64)]
      [.column (str "a"), .column (str "b"), .binaryExpr 0 .lt 1] [] =
      .ok (.both, [(0, .int64)]) := by
  have h := build_upcast_comparison_step 2 2 [(str "a", .int32)]
    [(str "a", .int32), (str "b", .int64)]
    [.column (str "a"), .column (str "b"), .binaryExpr 0 .lt 1] [] 0 1 .lt
    .left .right [] [] .int32 .int64 (by rfl) (by rfl) (by rfl) (by rfl) (by rfl) (by rfl)
  have h2 := ((h.1 (Or.inl ⟨rfl, rfl⟩)).2.1 (by decide) (by rfl)).1 .int64 (by rfl)
  simpa using h2

/-! # Claim C3: coalesced-cast materialization only for coalescing full joins -/

/-- C3: when a lossless-widening cast is inserted for a key pair, it is
materialized as standalone `HStack` columns on each input side (before the
`Join` node is built) exactly when the join is a Full join with coalescing
requested (`key_cols_coalesced`): in that case the key expressions stay
unchanged and the cast copies are collected and appended as one `HStack`
per side; for every other combination the collected lists are empty, the
cast stays inline inside the key expression, and `addCoalesceHStacks`
appends no node. -/
theorem coalesce_cast_materialization (options : JoinOptionsIR)
    (schema_left schema_right : Schema) (l r : ExprIR) (ea : ExprArena) (lp : LpArena)
    (input_left input_right : Nat) (ltype rtype dt : DataType)
    (hl : getDtypeN ea schema_left l.node = .ok ltype)
    (hr : getDtypeN ea schema_right r.node = .ok rtype)
    (hdt : get_numeric_upcast_supertype_lossless ltype rtype = some dt) :
    ((options.should_coalesce && options.how == JoinType.full) = false →
      coerceKeys false schema_left schema_right [l] [r] ea =
        (.ok ([l.set_node ea.length], [r.set_node (ea.length + 1)], [], []),
          ea ++ [.cast l.node dt .overflowing, .cast r.node dt .overflowing]) ∧
      addCoalesceHStacks false [] [] input_left input_right schema_left schema_right lp =
        (input_left, input_right, lp)) ∧
    ((options.should_coalesce && options.how == JoinType.full) = true →
      l.node < ea.length → r.node < ea.length →
      (ea.get l.node).is_col = true → (ea.get r.node).is_col = true →
      coerceKeys true schema_left schema_right [l] [r] ea =
        (.ok ([l], [r], [l.set_node ea.length], [r.set_node (ea.length + 1)]),
          ea ++ [.cast l.node dt .overflowing, .cast r.node dt .overflowing]) ∧
      addCoalesceHStacks true [l.set_node ea.length] [r.set_node (ea.length + 1)]
          input_left input_right schema_left schema_right lp =
        (lp.length, lp.length + 1,
          lp ++ [.hstack input_left [l.set_node ea.length] schema_left,
            .hstack input_right [r.set_node (ea.length + 1)] schema_right])) := by
  constructor
  · intro _
    constructor
    · unfold coerceKeys coercePair
      simp only [hl, hr, hdt]
      simp [coerceKeys]
    · simp [addCoalesceHStacks]
  · intro _ hln hrn hlc hrc
    have hgl : ExprArena.get
        (ea ++ [AExpr.cast l.node dt .overflowing, AExpr.cast r.node dt .overflowing])
        l.node = ea.get l.node := ExprArena.get_append_lt _ _ _ hln
    have hgr : ExprArena.get
        (ea ++ [AExpr.cast l.node dt .overflowing, AExpr.cast r.node dt .overflowing])
        r.node = ea.get r.node := ExprArena.get_append_lt _ _ _ hrn
    constructor
    · unfold coerceKeys coercePair
      simp only [hl, hr, hdt]
      simp only [List.append_assoc, List.cons_append, List.nil_append] at hgl hgr ⊢
      simp [coerceKeys, hgl, hgr, hlc, hrc]
    · simp [addCoalesceHStacks, LpArena.addN, List.length_append]

/-- C3 witness: an Int32/Int64 key pair under a coalescing full join has
its casts materialized as `HStack` columns, and under a left join the
casts stay inline with no `HStack`. -/
theorem coalesce_cast_materialization_witness :
    (coerceKeys true [(str "a", .int32)] [(str "b", .int64)]
        [{ node := 0, output_name := str "a" }] [{ node := 1, output_name := str "b" }]
        [.column (str "a"), .column (str "b")] =
      (.ok ([{ node := 0, output_name := str "a" }], [{ node := 1, output_name := str "b" }],
          [{ node := 2, output_name := str "a" }], [{ node := 3, output_name := str "b" }]),
        [.column (str "a"), .column (str "b"),
          .cast 0 .int64 .overflowing, .cast 1 .int64 .overflowing])) ∧
    (addCoalesceHStacks false [] [] 0 1 [(str "a", .int32)] [(str "b", .int64)]
        [.dataframeScan [(str "a", .int32)], .dataframeScan [(str "b", .int64)]] =
      (0, 1, [.dataframeScan [(str "a", .int32)], .dataframeScan [(str "b", .int64)]])) := by
  have hfull := coalesce_cast_materialization
    { how := .full, coalesce := .coalesceColumns, validation := .manyToMany }
    [(str "a", .int32)] [(str "b", .int64)]
    { node := 0, output_name := str "a" } { node := 1, output_name := str "b" }
    [.column (str "a"), .column (str "b")]
    [.dataframeScan [(str "a", .int32)], .dataframeScan [(str "b", .int64)]]
    0 1 .int32 .int64 .int64 (by rfl) (by rfl) (by rfl)
  have hleft := coalesce_cast_materialization
    { how := .left, coalesce := .coalesceColumns, validation := .manyToMany }
    [(str "a", .int32)] [(str "b", .int64)]
    { node := 0, output_name := str "a" } { node := 1, output_name := str "b" }
    [.column (str "a"), .column (str "b")]
    [.dataframeScan [(str "a", .int32)], .dataframeScan [(str "b", .int64)]]
    0 1 .int32 .int64 .int64 (by rfl) (by rfl) (by rfl)
  exact ⟨((hfull.2 (by rfl) (by decide) (by decide) (by rfl) (by rfl)).1),
    (hleft.1 (by rfl)).2⟩

/-! # Claim C6: duplicate-key-pair check -/

theorem dupCheckLoop_ok_iff (pairs : List (PlStr × PlStr)) : ∀ seen : List (PlStr × PlStr),
    (dupCheckLoop seen pairs = .ok () ↔ (pairs.Nodup ∧ ∀ p ∈ pairs, p ∉ seen)) := by
  induction pairs with
  | nil => intro seen; simp [dupCheckLoop]
  | cons p ps ih =>
    intro seen
    unfold dupCheckLoop
    by_cases hc : p ∈ seen
    · have hcb : seen.contains p = true := List.elem_eq_true_of_mem hc
      simp only [hcb, if_true]
      constructor
      · intro h; cases h
      · rintro ⟨-, hall⟩
        exact absurd hc (hall p (by simp))
    · have hcb : seen.contains p = false := by simpa using hc
      simp only [hcb, Bool.false_eq_true, if_false]
      rw [ih (p :: seen)]
      constructor
      · rintro ⟨hnd, hall⟩
        have hpps : p ∉ ps := by
          intro hmem
          exact (hall p hmem) (List.mem_cons_self p seen)
        refine ⟨List.nodup_cons.mpr ⟨hpps, hnd⟩, ?_⟩
        intro q hq
        rcases List.mem_cons.mp hq with rfl | hq2
        · exact hc
        · intro hqs
          exact (hall q hq2) (List.mem_cons_of_mem p hqs)
      · rintro ⟨hnd, hall⟩
        rcases List.nodup_cons.mp hnd with ⟨hpnotps, hndps⟩
        refine ⟨hndps, ?_⟩
        intro q hq hqin
        rcases List.mem_cons.mp hqin with rfl | hq2
        · exact hpnotps hq
        · exact (hall q (List.mem_cons_of_mem p hq)) hq2

theorem dupCheckLoop_ok_or_error (pairs : List (PlStr × PlStr)) :
    ∀ seen, dupCheckLoop seen pairs = .ok () ∨
      dupCheckLoop seen pairs = .error (.invalidOperation (str "joining with repeated key names")) := by
  induction pairs with
  | nil => intro seen; left; rfl
  | cons p ps ih =>
    intro seen
    unfold dupCheckLoop
    by_cases hc : seen.contains p = true
    · simp only [hc, if_true]
      right
      trivial
    · simp only [eq_false_of_ne_true hc, Bool.false_eq_true, if_false]
      exact ih (p :: seen)

/-- C6: for every equality join (`how` is not the inequality IEJoin kind)
the duplicate-key check fails with a repeated-join-key InvalidOperation
error exactly when some ordered pair of zipped key output names occurs
twice; key lists without a repeated ordered pair pass the check; and for
inequality joins the check is skipped entirely (it always passes). -/
theorem dup_key_check (how : JoinType) (left_on right_on : List ExprIR) :
    (how.isIEJoin = false →
      (dupCheck (!how.isIEJoin) left_on right_on = .ok () ↔
        ((left_on.map ExprIR.output_name).zip (right_on.map ExprIR.output_name)).Nodup) ∧
      (¬((left_on.map ExprIR.output_name).zip (right_on.map ExprIR.output_name)).Nodup →
        dupCheck (!how.isIEJoin) left_on right_on =
          .error (.invalidOperation (str "joining with repeated key names")))) ∧
    (how.isIEJoin = true → dupCheck (!how.isIEJoin) left_on right_on = .ok ()) := by
  constructor
  · intro hie
    have hd : dupCheck (!how.isIEJoin) left_on right_on =
        dupCheckLoop [] ((left_on.map ExprIR.output_name).zip (right_on.map ExprIR.output_name)) := by
      simp [dupCheck, hie]
    constructor
    · rw [hd, dupCheckLoop_ok_iff]
      simp
    · intro hnotdup
      rcases dupCheckLoop_ok_or_error
        ((left_on.map ExprIR.output_name).zip (right_on.map ExprIR.output_name)) [] with hok | herr
      · exfalso
        exact hnotdup (((dupCheckLoop_ok_iff _ []).mp hok).1)
      · rw [hd, herr]
  · intro hie
    simp [dupCheck, hie]

/-- C6 witness: the pair lists with a repeated ordered pair fail, lists
without a repeat pass, and an IEJoin skips the check even with repeats. -/
theorem dup_key_check_witness :
    dupCheck true [{ node := 0, output_name := str "a" }, { node := 1, output_name := str "a" }]
      [{ node := 2, output_name := str "x" }, { node := 3, output_name := str "x" }] =
      .error (.invalidOperation (str "joining with repeated key names")) ∧
    dupCheck true [{ node := 0, output_name := str "a" }, { node := 1, output_name := str "b" }]
      [{ node := 2, output_name := str "x" }, { node := 3, output_name := str "y" }] = .ok () ∧
    dupCheck false [{ node := 0, output_name := str "a" }, { node := 1, output_name := str "a" }]
      [{ node := 2, output_name := str "x" }, { node := 3, output_name := str "x" }] = .ok () := by
  refine ⟨?_, ?_, ?_⟩
  · exact ((dup_key_check .inner
      [{ node := 0, output_name := str "a" }, { node := 1, output_name := str "a" }]
      [{ node := 2, output_name := str "x" }, { node := 3, output_name := str "x" }]).1
      (by rfl)).2 (by decide)
  · exact ((dup_key_check .inner
      [{ node := 0, output_name := str "a" }, { node := 1, output_name := str "b" }]
      [{ node := 2, output_name := str "x" }, { node := 3, output_name := str "y" }]).1
      (by rfl)).1.mpr (by decide)
  · exact (dup_key_check .ieJoin
      [{ node := 0, output_name := str "a" }, { node := 1, output_name := str "a" }]
      [{ node := 2, output_name := str "x" }, { node := 3, output_name := str "x" }]).2 (by rfl)

/-! # Claim C7: non-column keys downgrade coalescing with a warning -/

/-- C7: on a non-cross equality join whose other shape checks pass, when
some join-key expression is not a bare column reference the shape
validation succeeds (this condition is never an error) with the coalesce
option downgraded to KeepColumns, and the downgrade warning is emitted
exactly when coalescing had been requested; `resolve_join` then proceeds
with the downgraded options. -/
theorem coalesce_downgrade_on_noncolumn_keys (left_on right_on : List Expr)
    (options : JoinOptionsIR) (schema_left schema_right : Schema)
    (hcross : options.how.is_cross = false)
    (hnonempty : ¬(left_on.length + right_on.length = 0))
    (halias_l : check_join_keys left_on = .ok ())
    (halias_r : check_join_keys right_on = .ok ())
    (hby : checkAsofBy options.how schema_left schema_right = .ok ())
    (hlen : left_on.length = right_on.length)
    (hnoncol : ((left_on ++ right_on).any fun e =>
      has_expr e fun e2 =>
        match e2 with
        | .column _ => false
        | _ => true) = true) :
    checkShape left_on right_on options schema_left schema_right =
      .ok ({ options with coalesce := .keepColumns },
        if options.coalesce == .coalesceColumns then
          [str "coalescing join requested but not all join keys are column references"]
        else []) := by
  unfold checkShape
  rw [hcross]
  simp only [Bool.false_eq_true, if_false, hnonempty, halias_l, halias_r, hnoncol,
    Bool.true_and, JoinValidation.is_valid_join]
  have hby2 : checkAsofBy ({ options with coalesce := JoinCoalesce.keepColumns }).how
      schema_left schema_right = .ok () := hby
  simp only [if_true, hby2, hlen]

/-- C7 witness: a cast key on an inner join with coalescing requested is
downgraded to KeepColumns with the warning emitted. -/
theorem coalesce_downgrade_on_noncolumn_keys_witness :
    checkShape [.cast (.column (str "a")) .int64] [.column (str "b")]
      { how := .inner, coalesce := .coalesceColumns, validation := .manyToMany }
      [(str "a", .int32)] [(str "b", .int64)] =
      .ok ({ how := .inner, coalesce := .keepColumns, validation := .manyToMany },
        [str "coalescing join requested but not all join keys are column references"]) := by
  have h := coalesce_downgrade_on_noncolumn_keys
    [.cast (.column (str "a")) .int64] [.column (str "b")]
    { how := .inner, coalesce := .coalesceColumns, validation := .manyToMany }
    [(str "a", .int32)] [(str "b", .int64)]
    (by rfl) (by decide) (by rfl) (by rfl) (by rfl) (by rfl) (by rfl)
  simpa using h

/-! # Helper lemmas for the success path on bare-column keys -/

theorem has_expr_column (n : PlStr) (p : Expr → Bool) :
    has_expr (.column n) p = p (.column n) := rfl

theorem check_join_keys_columns (names : List PlStr) :
    check_join_keys (names.map Expr.column) = .ok () := by
  unfold check_join_keys
  have h : (names.map Expr.column).any (fun e => has_expr e fun e2 =>
      match e2 with
      | .alias _ _ => true
      | _ => false) = false := by
    rw [List.any_eq_false]
    intro e he
    rcases List.mem_map.mp he with ⟨n, -, rfl⟩
    simp [has_expr_column]
  simp [h]

theorem noncol_any_columns (lnames rnames : List PlStr) :
    ((lnames.map Expr.column ++ rnames.map Expr.column).any fun e =>
      has_expr e fun e2 =>
        match e2 with
        | .column _ => false
        | _ => true) = false := by
  rw [List.any_eq_false]
  intro e he
  rcases List.mem_append.mp he with hm | hm <;>
    rcases List.mem_map.mp hm with ⟨n, -, rfl⟩ <;> simp [has_expr_column]

/-- Shape validation succeeds, unchanged, on equal-count non-empty bare
column keys. -/
theorem checkShape_columns (lnames rnames : List PlStr) (options : JoinOptionsIR)
    (schema_left schema_right : Schema)
    (hcross : options.how.is_cross = false)
    (hby : checkAsofBy options.how schema_left schema_right = .ok ())
    (hlen : lnames.length = rnames.length) (hne : lnames ≠ []) :
    checkShape (lnames.map Expr.column) (rnames.map Expr.column) options
      schema_left schema_right = .ok (options, []) := by
  have hpos : 0 < lnames.length := List.length_pos.mpr hne
  have hsum : ¬((lnames.map Expr.column).length + (rnames.map Expr.column).length = 0) := by
    simp only [List.length_map]
    omega
  have hsum2 : ¬(rnames.length + rnames.length = 0) := by omega
  unfold checkShape
  rw [hcross]
  simp only [Bool.false_eq_true, if_false, hsum, check_join_keys_columns,
    noncol_any_columns, Bool.false_and, Bool.false_eq_true,
    JoinValidation.is_valid_join, hby, List.length_map, hlen, if_true, hsum2]

/-- Shape validation fails with the key-count-mismatch error on unequal
counts (given the earlier checks pass). -/
theorem checkShape_count_mismatch (lnames rnames : List PlStr) (options : JoinOptionsIR)
    (schema_left schema_right : Schema)
    (hcross : options.how.is_cross = false)
    (hby : checkAsofBy options.how schema_left schema_right = .ok ())
    (hlen : lnames.length ≠ rnames.length) :
    checkShape (lnames.map Expr.column) (rnames.map Expr.column) options
      schema_left schema_right =
      .error (.invalidOperation (str "the number of columns given as join key should be equal")) := by
  have hsum : ¬((lnames.map Expr.column).length + (rnames.map Expr.column).length = 0) := by
    simp only [List.length_map]
    omega
  have hsum2 : ¬(lnames.length + rnames.length = 0) := by omega
  unfold checkShape
  rw [hcross]
  simp only [Bool.false_eq_true, if_false, hsum, check_join_keys_columns,
    noncol_any_columns, Bool.false_and, Bool.false_eq_true,
    JoinValidation.is_valid_join, hby, List.length_map, hlen, hsum2]

/-- Shape validation fails on a non-cross join with no keys at all. -/
theorem checkShape_no_keys (options : JoinOptionsIR) (schema_left schema_right : Schema)
    (hcross : options.how.is_cross = false) :
    checkShape [] [] options schema_left schema_right =
      .error (.invalidOperation (str "expected join keys/predicates")) := by
  unfold checkShape
  rw [hcross]
  simp

/-- Resolving bare column keys appends one column node per key and yields
`buildColIRs`. -/
theorem resolveKeys_columns (sch : Schema) :
    ∀ (names : List PlStr) (ea : ExprArena), (∀ n ∈ names, sch.contains n = true) →
    resolveKeys (names.map Expr.column) sch ea =
      (.ok (buildColIRs ea.length names), ea ++ names.map AExpr.column) := by
  intro names
  induction names with
  | nil =>
    intro ea h
    simp only [List.map_nil, List.append_nil]
    rfl
  | cons n ns ih =>
    intro ea h
    have hn : sch.contains n = true := h n (by simp)
    simp only [List.map_cons]
    unfold resolveKeys to_expr_ir_materialized_lit
    simp only [hn, if_true]
    rw [ih (ea ++ [AExpr.column n]) (fun m hm => h m (List.mem_cons_of_mem n hm))]
    simp [buildColIRs, List.length_append]

theorem buildColIRs_output : ∀ (names : List PlStr) (start : Nat),
    (buildColIRs start names).map ExprIR.output_name = names := by
  intro names
  induction names with
  | nil => intro start; rfl
  | cons n ns ih => intro start; simp [buildColIRs, ih]

theorem buildColIRs_length : ∀ (names : List PlStr) (start : Nat),
    (buildColIRs start names).length = names.length := by
  intro names
  induction names with
  | nil => intro start; rfl
  | cons n ns ih => intro start; simp [buildColIRs, ih]

/-- Each resolved column key points at its own column node in any arena of
the shape `pre ++ columns ++ post`. -/
theorem buildColIRs_get : ∀ (names : List PlStr) (pre post : List AExpr),
    ∀ ir ∈ buildColIRs pre.length names,
    ExprArena.get (pre ++ names.map AExpr.column ++ post) ir.node = .column ir.output_name := by
  intro names
  induction names with
  | nil => intro pre post ir hmem; cases hmem
  | cons n ns ih =>
    intro pre post ir hmem
    rcases List.mem_cons.mp hmem with rfl | hmem2
    · have hshape : pre ++ (n :: ns).map AExpr.column ++ post =
          (pre ++ [AExpr.column n]) ++ (ns.map AExpr.column ++ post) := by
        simp
      have hlt : pre.length < (pre ++ [AExpr.column n]).length := by
        simp
      rw [hshape, ExprArena.get_append_lt _ _ _ hlt, ExprArena.get_append_self]
    · have hshape : pre ++ (n :: ns).map AExpr.column ++ post =
          (pre ++ [AExpr.column n]) ++ ns.map AExpr.column ++ post := by
        simp
      have hlen : pre.length + 1 = (pre ++ [AExpr.column n]).length := by
        simp
      rw [hshape]
      exact ih (pre ++ [AExpr.column n]) post ir (by rw [← hlen]; exact hmem2)

/-- The name pairs of zipped resolved column keys are the zipped names. -/
theorem buildColIRs_zip_names : ∀ (lnames rnames : List PlStr) (s1 s2 : Nat) (p : ExprIR × ExprIR),
    p ∈ (buildColIRs s1 lnames).zip (buildColIRs s2 rnames) →
    (p.1.output_name, p.2.output_name) ∈ lnames.zip rnames := by
  intro lnames
  induction lnames with
  | nil => intro rnames s1 s2 p hp; cases hp
  | cons n ns ih =>
    intro rnames s1 s2 p hp
    cases rnames with
    | nil => cases hp
    | cons m ms =>
      simp only [buildColIRs, List.zip_cons_cons] at hp
      rcases List.mem_cons.mp hp with rfl | hp2
      · simp [List.zip_cons_cons]
      · exact List.mem_cons_of_mem _ (ih ms (s1 + 1) (s2 + 1) p hp2)

theorem ExprIR.is_scalar_of_column (ea : ExprArena) (ir : ExprIR) (c : PlStr)
    (h : ea.get ir.node = .column c) : ir.is_scalar ea = false := by
  unfold ExprIR.is_scalar isScalarFuel
  simp [h]

theorem elementwise_of_column (ea : ExprArena) (ir : ExprIR) (c : PlStr)
    (h : ea.get ir.node = .column c) : elementwiseFuel (ir.node + 1) ea ir.node = true := by
  unfold elementwiseFuel
  simp [h]

theorem getDtypeN_column (ea : ExprArena) (sch : Schema) (ir : ExprIR) (c : PlStr) (dt : DataType)
    (h : ea.get ir.node = .column c) (hdt : sch.lookup c = some dt) :
    getDtypeN ea sch ir.node = .ok dt := by
  unfold getDtypeN getDtypeFuel
  simp [h, hdt]

theorem Schema.contains_lookup_isSome (s : Schema) (n : PlStr) (h : s.contains n = true) :
    ∃ dt, s.lookup n = some dt := by
  unfold Schema.contains at h
  rcases List.any_eq_true.mp h with ⟨p, hp, hpn⟩
  unfold Schema.lookup
  have h2 : (s.find? fun q => q.1 == n).isSome = true :=
    List.find?_isSome.mpr ⟨p, hp, hpn⟩
  rcases Option.isSome_iff_exists.mp h2 with ⟨q, hq⟩
  exact ⟨q.2, by rw [hq]; rfl⟩

/-- The coercion loop is the identity (no casts, no collected columns, no
arena growth) when every zipped pair resolves to one common dtype. -/
theorem coerceKeys_id (key_cols_coalesced : Bool) (schema_left schema_right : Schema) :
    ∀ (ls rs : List ExprIR) (ea : ExprArena),
    (∀ p ∈ ls.zip rs, ∃ dt, getDtypeN ea schema_left (p.1).node = .ok dt ∧
      getDtypeN ea schema_right (p.2).node = .ok dt) →
    coerceKeys key_cols_coalesced schema_left schema_right ls rs ea =
      (.ok (ls, rs, [], []), ea) := by
  intro ls
  induction ls with
  | nil => intro rs ea h; simp [coerceKeys]
  | cons l ls2 ih =>
    intro rs ea h
    cases rs with
    | nil => simp [coerceKeys]
    | cons r rs2 =>
      rcases h (l, r) (by simp [List.zip_cons_cons]) with ⟨dt, hdl, hdr⟩
      have hpair : coercePair key_cols_coalesced schema_left schema_right l r ea =
          (.ok (l, r, [], []), ea) := by
        unfold coercePair
        simp only [hdl, hdr, upcast_lossless_self]
        simp
      have hrest := ih rs2 ea (fun p hp => h p (by simp [List.zip_cons_cons, hp]))
      unfold coerceKeys
      simp only [hpair, hrest]
      simp

theorem all_elementwise_of_columns (es : List ExprIR) (ea : ExprArena)
    (h : ∀ e ∈ es, ∃ c, ExprArena.get ea e.node = .column c) :
    all_elementwise es ea = true := by
  unfold all_elementwise
  rw [List.all_eq_true]
  intro e he
  rcases h e he with ⟨c, hc⟩
  exact elementwise_of_column ea e c hc

theorem dupCheck_ok_of_nodup (check : Bool) (left_on right_on : List ExprIR)
    (h : ((left_on.map ExprIR.output_name).zip (right_on.map ExprIR.output_name)).Nodup) :
    dupCheck check left_on right_on = .ok () := by
  cases check
  · rfl
  · unfold dupCheck
    simp only [if_true]
    exact (dupCheckLoop_ok_iff _ []).mpr ⟨h, by simp⟩

theorem materializeScalars_none (left_on right_on : List ExprIR)
    (input_left input_right : Nat) (schema_left schema_right : Schema)
    (ea : ExprArena) (lp : LpArena)
    (h : ((left_on ++ right_on).any fun e => e.is_scalar ea) = false) :
    materializeScalars left_on right_on input_left input_right schema_left schema_right ea lp =
      (.ok (left_on, right_on, input_left, input_right, schema_left, schema_right, false),
        ea, lp) := by
  unfold materializeScalars
  simp [h]

theorem det_join_schema_isOk (schema_left schema_right : Schema)
    (left_on right_on : List ExprIR) (options : JoinOptionsIR) :
    ∃ js, det_join_schema schema_left schema_right left_on right_on options = .ok js := by
  rcases options with ⟨how, co, va⟩
  cases how <;> exact ⟨_, rfl⟩

theorem addCoalesceHStacks_nil (key_cols_coalesced : Bool) (input_left input_right : Nat)
    (schema_left schema_right : Schema) (lp : LpArena) :
    addCoalesceHStacks key_cols_coalesced [] [] input_left input_right
      schema_left schema_right lp = (input_left, input_right, lp) := by
  cases key_cols_coalesced <;> simp [addCoalesceHStacks]

/-- On a non-cross join whose keys are bare columns, present in their
schemas, with equal dtypes per zipped pair, no repeated name pair, equal
non-zero counts, and a passing asof-by check, `resolve_join` succeeds and
returns the join node as the result handle (no projection is added). -/
theorem resolve_join_columns_ok (input_left input_right : Nat) (lnames rnames : List PlStr)
    (options : JoinOptionsIR) (st : PlanState)
    (hcross : options.how.is_cross = false)
    (hby : checkAsofBy options.how (st.lp.schema_of input_left)
      (st.lp.schema_of input_right) = .ok ())
    (hlen : lnames.length = rnames.length) (hne : lnames ≠ [])
    (hl : ∀ n ∈ lnames, (st.lp.schema_of input_left).contains n = true)
    (hr : ∀ n ∈ rnames, (st.lp.schema_of input_right).contains n = true)
    (hdt : ∀ p ∈ lnames.zip rnames, (st.lp.schema_of input_left).lookup p.1 =
      (st.lp.schema_of input_right).lookup p.2)
    (hnodup : (lnames.zip rnames).Nodup) :
    ∃ node st2, resolve_join input_left input_right (lnames.map Expr.column)
      (rnames.map Expr.column) options st = (.ok (node, node), st2, []) := by
  have hcs := checkShape_columns lnames rnames options (st.lp.schema_of input_left)
    (st.lp.schema_of input_right) hcross hby hlen hne
  have hrkl := resolveKeys_columns (st.lp.schema_of input_left) lnames st.ea hl
  have hrkr := resolveKeys_columns (st.lp.schema_of input_right) rnames
    (st.ea ++ lnames.map AExpr.column) hr
  set lirs := buildColIRs st.ea.length lnames with hlirs
  set rirs := buildColIRs (st.ea ++ lnames.map AExpr.column).length rnames with hrirs
  set ea2 := st.ea ++ lnames.map AExpr.column ++ rnames.map AExpr.column with hea2
  have hLget : ∀ ir ∈ lirs, ExprArena.get ea2 ir.node = .column ir.output_name := by
    intro ir hir
    exact buildColIRs_get lnames st.ea (rnames.map AExpr.column) ir hir
  have hRget : ∀ ir ∈ rirs, ExprArena.get ea2 ir.node = .column ir.output_name := by
    intro ir hir
    have h0 := buildColIRs_get rnames (st.ea ++ lnames.map AExpr.column) [] ir hir
    rw [List.append_nil] at h0
    rw [hea2]
    exact h0
  have hdc : dupCheck (!options.how.isIEJoin) lirs rirs = .ok () := by
    apply dupCheck_ok_of_nodup
    rw [hlirs, hrirs, buildColIRs_output, buildColIRs_output]
    exact hnodup
  have hsc : ((lirs ++ rirs).any fun e => e.is_scalar ea2) = false := by
    rw [List.any_eq_false]
    intro e he
    rcases List.mem_append.mp he with hm | hm
    · rcases hLget e hm with hc
      simp [ExprIR.is_scalar_of_column ea2 e _ hc]
    · rcases hRget e hm with hc
      simp [ExprIR.is_scalar_of_column ea2 e _ hc]
  have hms := materializeScalars_none lirs rirs input_left input_right
    (st.lp.schema_of input_left) (st.lp.schema_of input_right) ea2 st.lp hsc
  have hck := coerceKeys_id (options.should_coalesce && options.how == JoinType.full)
    (st.lp.schema_of input_left) (st.lp.schema_of input_right) lirs rirs ea2
    (by
      intro p hp
      have hmem := List.of_mem_zip hp
      have hnames := buildColIRs_zip_names lnames rnames st.ea.length
        (st.ea ++ lnames.map AExpr.column).length p (by rw [← hlirs, ← hrirs]; exact hp)
      have hnmem := List.of_mem_zip hnames
      rcases Schema.contains_lookup_isSome _ _ (hl _ hnmem.1) with ⟨dt, hdt1⟩
      have hdt2 : (st.lp.schema_of input_right).lookup p.2.output_name = some dt := by
        rw [← hdt _ hnames]
        exact hdt1
      exact ⟨dt, getDtypeN_column ea2 _ p.1 _ dt (hLget p.1 hmem.1) hdt1,
        getDtypeN_column ea2 _ p.2 _ dt (hRget p.2 hmem.2) hdt2⟩)
  have hewl : all_elementwise lirs ea2 = true :=
    all_elementwise_of_columns lirs ea2 (fun e he => ⟨e.output_name, hLget e he⟩)
  have hewr : all_elementwise rirs ea2 = true :=
    all_elementwise_of_columns rirs ea2 (fun e he => ⟨e.output_name, hRget e he⟩)
  rcases det_join_schema_isOk (st.lp.schema_of input_left) (st.lp.schema_of input_right)
    lirs rirs options with ⟨js, hjs⟩
  have hah := addCoalesceHStacks_nil
    (options.should_coalesce && options.how == JoinType.full) input_left input_right
    (st.lp.schema_of input_left) (st.lp.schema_of input_right) st.lp
  refine ⟨st.lp.length,
    { ea := ea2, lp := st.lp ++ [IR.join input_left input_right js lirs rirs options] }, ?_⟩
  unfold resolve_join
  simp only [hcs, hrkl, hrkr, optimizerHook, hdc, hms, hck, hewl, hewr, hjs, hah,
    LpArena.addN]
  simp

/-! # Claim C5: the key-count invariant -/

/-- C5: for a non-cross (and non-inequality-dispatch) join whose keys are
otherwise well-formed (bare columns present in their schemas with equal
dtypes per pair, no repeated name pair, passing asof-by check),
`resolve_join` fails exactly when the two key lists have different lengths
or are empty: with equal non-zero counts it succeeds, with both lists
empty it fails with the missing-keys InvalidOperation error, and with
differing counts it fails with the key-count-mismatch InvalidOperation
error (the planning state unchanged in both error cases). -/
theorem resolve_join_key_count_invariant (input_left input_right : Nat)
    (lnames rnames : List PlStr) (options : JoinOptionsIR) (st : PlanState)
    (hcross : options.how.is_cross = false)
    (hby : checkAsofBy options.how (st.lp.schema_of input_left)
      (st.lp.schema_of input_right) = .ok ())
    (hl : ∀ n ∈ lnames, (st.lp.schema_of input_left).contains n = true)
    (hr : ∀ n ∈ rnames, (st.lp.schema_of input_right).contains n = true)
    (hdt : ∀ p ∈ lnames.zip rnames, (st.lp.schema_of input_left).lookup p.1 =
      (st.lp.schema_of input_right).lookup p.2)
    (hnodup : (lnames.zip rnames).Nodup) :
    ((lnames.length = rnames.length ∧ lnames ≠ []) →
      ∃ node st2, resolve_join input_left input_right (lnames.map Expr.column)
        (rnames.map Expr.column) options st = (.ok (node, node), st2, [])) ∧
    (lnames = [] → rnames = [] →
      resolve_join input_left input_right (lnames.map Expr.column)
        (rnames.map Expr.column) options st =
        (.error (.invalidOperation (str "expected join keys/predicates")), st, [])) ∧
    (lnames.length ≠ rnames.length →
      resolve_join input_left input_right (lnames.map Expr.column)
        (rnames.map Expr.column) options st =
        (.error (.invalidOperation
          (str "the number of columns given as join key should be equal")), st, [])) := by
  refine ⟨?_, ?_, ?_⟩
  · rintro ⟨hlen, hne⟩
    exact resolve_join_columns_ok input_left input_right lnames rnames options st
      hcross hby hlen hne hl hr hdt hnodup
  · rintro rfl rfl
    have hcs := checkShape_no_keys options (st.lp.schema_of input_left)
      (st.lp.schema_of input_right) hcross
    unfold resolve_join
    simp only [List.map_nil, hcs]
  · intro hlen
    have hcs := checkShape_count_mismatch lnames rnames options
      (st.lp.schema_of input_left) (st.lp.schema_of input_right) hcross hby hlen
    unfold resolve_join
    simp only [hcs]

/-- C5 witness: equal single-column keys succeed; empty keys and a 1-vs-2
count mismatch fail with the respective InvalidOperation errors. -/
theorem resolve_join_key_count_invariant_witness :
    (∃ node st2, resolve_join 0 1 [.column (str "a")] [.column (str "b")]
      { how := .inner, coalesce := .keepColumns, validation := .manyToMany }
      { ea := [], lp := [.dataframeScan [(str "a", .int32)],
        .dataframeScan [(str "b", .int32)]] } = (.ok (node, node), st2, [])) ∧
    resolve_join 0 1 [] [.column (str "b")]
      { how := .inner, coalesce := .keepColumns, validation := .manyToMany }
      { ea := [], lp := [.dataframeScan [(str "a", .int32)],
        .dataframeScan [(str "b", .int32)]] } =
      (.error (.invalidOperation
        (str "the number of columns given as join key should be equal")),
        { ea := [], lp := [.dataframeScan [(str "a", .int32)],
          .dataframeScan [(str "b", .int32)]] }, []) := by
  constructor
  · have h := (resolve_join_key_count_invariant 0 1 [str "a"] [str "b"]
      { how := .inner, coalesce := .keepColumns, validation := .manyToMany }
      { ea := [], lp := [.dataframeScan [(str "a", .int32)],
        .dataframeScan [(str "b", .int32)]] }
      (by rfl) (by rfl) (by decide) (by decide) (by decide) (by decide)).1
      ⟨by rfl, by decide⟩
    simpa using h
  · have h := (resolve_join_key_count_invariant 0 1 ([] : List PlStr) [str "b"]
      { how := .inner, coalesce := .keepColumns, validation := .manyToMany }
      { ea := [], lp := [.dataframeScan [(str "a", .int32)],
        .dataframeScan [(str "b", .int32)]] }
      (by rfl) (by rfl) (by decide) (by decide) (by decide) (by decide)).2.2
      (by decide)
    simpa using h

/-! # Helper lemmas for the scalar-key projection -/

theorem Schema.mem_names_contains (js : Schema) (n : PlStr) (h : n ∈ js.names) :
    js.contains n = true := by
  unfold Schema.names at h
  rcases List.mem_map.mp h with ⟨q, hq, rfl⟩
  unfold Schema.contains
  rw [List.any_eq_true]
  exact ⟨q, hq, by simp⟩

theorem filter_names_all_contains (js : Schema) (p : PlStr → Bool) :
    ((js.names.filter p).all fun n => js.contains n) = true := by
  rw [List.all_eq_true]
  intro n hn
  exact js.mem_names_contains n (List.mem_of_mem_filter hn)

theorem filterMap_lookup_names (js : Schema) : ∀ (names : List PlStr),
    (∀ n ∈ names, js.contains n = true) →
    ((names.filterMap fun n => (js.lookup n).map fun dt => (n, dt)).map Prod.fst) = names := by
  intro names
  induction names with
  | nil => intro h; rfl
  | cons n ns ih =>
    intro h
    rcases js.contains_lookup_isSome n (h n (by simp)) with ⟨dt, hdt⟩
    rw [List.filterMap_cons]
    simp only [hdt, Option.map_some']
    rw [List.map_cons, ih (fun m hm => h m (by simp [hm]))]

theorem LpArena.get_last_appended (lp : LpArena) (ir : IR) :
    LpArena.get (lp ++ [ir]) lp.length = ir := by
  simp [LpArena.get, List.getD_eq_getElem?_getD]

theorem schema_of_append_projection (lp : LpArena) (i : Nat) (cols : List PlStr) (s : Schema) :
    LpArena.schema_of (lp ++ [IR.simpleProjection i cols s]) lp.length = s := by
  unfold LpArena.schema_of schemaOfFuel
  rw [LpArena.get_last_appended]

/-- When scalar keys were materialized (`has_scalars = true`) and all later
phases succeed, `resolve_join` wraps the join node in a projection onto
exactly the join-schema columns whose names do not start with the private
temporary marker, and the result handle's schema names are that filtered
list. -/
theorem resolve_join_scalars_shape
    (input_left input_right : Nat) (left_on right_on : List Expr)
    (options opts1 : JoinOptionsIR) (st : PlanState) (warns : List PlStr)
    (lirs rirs l2 r2 l3 r3 awl awr : List ExprIR) (il2 ir2 : Nat)
    (sl2 sr2 : Schema) (ea1 ea2 ea3 ea4 : ExprArena) (lp3 : LpArena)
    (hcs : checkShape left_on right_on options (st.lp.schema_of input_left)
      (st.lp.schema_of input_right) = .ok (opts1, warns))
    (hrl : resolveKeys left_on (st.lp.schema_of input_left) st.ea = (.ok lirs, ea1))
    (hrr : resolveKeys right_on (st.lp.schema_of input_right) ea1 = (.ok rirs, ea2))
    (hdc : dupCheck (!opts1.how.isIEJoin) lirs rirs = .ok ())
    (hms : materializeScalars lirs rirs input_left input_right
      (st.lp.schema_of input_left) (st.lp.schema_of input_right) ea2 st.lp =
      (.ok (l2, r2, il2, ir2, sl2, sr2, true), ea3, lp3))
    (hck : coerceKeys (opts1.should_coalesce && opts1.how == JoinType.full) sl2 sr2 l2 r2 ea3 =
      (.ok (l3, r3, awl, awr), ea4))
    (hew : (all_elementwise l3 ea4 && all_elementwise r3 ea4) = true) :
    ∃ js res jn st2,
      det_join_schema sl2 sr2 l3 r3 opts1 = .ok js ∧
      resolve_join input_left input_right left_on right_on options st =
        (.ok (res, jn), st2, warns) ∧
      (st2.lp.schema_of res).names =
        js.names.filter fun n => !polarsTmpMark.isPrefixOf n := by
  rcases det_join_schema_isOk sl2 sr2 l3 r3 opts1 with ⟨js, hjs⟩
  rcases hach : addCoalesceHStacks (opts1.should_coalesce && opts1.how == JoinType.full)
    awl awr il2 ir2 sl2 sr2 lp3 with ⟨il3, ir3, lp4⟩
  have hproj : project_simple lp4.length
      (js.names.filter fun n => !polarsTmpMark.isPrefixOf n) js =
      .ok (.simpleProjection lp4.length (js.names.filter fun n => !polarsTmpMark.isPrefixOf n)
        ((js.names.filter fun n => !polarsTmpMark.isPrefixOf n).filterMap
          fun n => (js.lookup n).map fun dt => (n, dt))) := by
    unfold project_simple
    rw [filter_names_all_contains]
    simp
  refine ⟨js, (lp4 ++ [IR.join il3 ir3 js l3 r3 opts1]).length, lp4.length,
    { ea := ea4, lp := (lp4 ++ [IR.join il3 ir3 js l3 r3 opts1]) ++
      [.simpleProjection lp4.length (js.names.filter fun n => !polarsTmpMark.isPrefixOf n)
        ((js.names.filter fun n => !polarsTmpMark.isPrefixOf n).filterMap
          fun n => (js.lookup n).map fun dt => (n, dt))] }, hjs, ?_, ?_⟩
  · unfold resolve_join
    simp only [hcs, hrl, hrr, hdc, optimizerHook, hms, hck, hew, if_true, hjs, hach,
      LpArena.addN, hproj]
  · rw [schema_of_append_projection]
    exact filterMap_lookup_names js _ (fun n hn => js.mem_names_contains n
      (List.mem_of_mem_filter hn))

/-! # Claim C8: scalar keys never leak temporary columns -/

/-- C8: when a join uses at least one scalar key (so the scalar keys were
lifted into fresh marker-named temporary columns and `has_scalars` holds)
and resolution succeeds, the returned result handle is the wrapping
projection whose schema contains no name starting with the private
temporary marker; in particular no synthetic temporary column name
`get_tmp_name i` ever appears in the output schema. -/
theorem resolve_join_scalar_keys_no_leak
    {input_left input_right : Nat} {left_on right_on : List Expr}
    {options opts1 : JoinOptionsIR} {st : PlanState} {warns : List PlStr}
    {lirs rirs l2 r2 l3 r3 awl awr : List ExprIR} {il2 ir2 : Nat}
    {sl2 sr2 : Schema} {ea1 ea2 ea3 ea4 : ExprArena} {lp3 : LpArena}
    (hcs : checkShape left_on right_on options (st.lp.schema_of input_left)
      (st.lp.schema_of input_right) = .ok (opts1, warns))
    (hrl : resolveKeys left_on (st.lp.schema_of input_left) st.ea = (.ok lirs, ea1))
    (hrr : resolveKeys right_on (st.lp.schema_of input_right) ea1 = (.ok rirs, ea2))
    (hdc : dupCheck (!opts1.how.isIEJoin) lirs rirs = .ok ())
    (hms : materializeScalars lirs rirs input_left input_right
      (st.lp.schema_of input_left) (st.lp.schema_of input_right) ea2 st.lp =
      (.ok (l2, r2, il2, ir2, sl2, sr2, true), ea3, lp3))
    (hck : coerceKeys (opts1.should_coalesce && opts1.how == JoinType.full) sl2 sr2 l2 r2 ea3 =
      (.ok (l3, r3, awl, awr), ea4))
    (hew : (all_elementwise l3 ea4 && all_elementwise r3 ea4) = true) :
    ∃ js res jn st2,
      det_join_schema sl2 sr2 l3 r3 opts1 = .ok js ∧
      resolve_join input_left input_right left_on right_on options st =
        (.ok (res, jn), st2, warns) ∧
      (∀ n ∈ (st2.lp.schema_of res).names, polarsTmpMark.isPrefixOf n = false) ∧
      (∀ i : Nat, get_tmp_name i ∉ (st2.lp.schema_of res).names) := by
  rcases resolve_join_scalars_shape input_left input_right left_on right_on options opts1 st
    warns lirs rirs l2 r2 l3 r3 awl awr il2 ir2 sl2 sr2 ea1 ea2 ea3 ea4 lp3
    hcs hrl hrr hdc hms hck hew with ⟨js, res, jn, st2, hjs, hres, hnames⟩
  have hnoleak : ∀ n ∈ (st2.lp.schema_of res).names, polarsTmpMark.isPrefixOf n = false := by
    intro n hn
    rw [hnames] at hn
    have := (List.mem_filter.mp hn).2
    simpa using this
  refine ⟨js, res, jn, st2, hjs, hres, hnoleak, ?_⟩
  intro i hmem
  have hfalse := hnoleak _ hmem
  rw [get_tmp_name, isPrefixOf_append_self] at hfalse
  cases hfalse

/-- C8 witness: a literal Int64 left key joined against a column; the
resolver lifts it to a temporary column and the result schema has no
marker-named column. -/
theorem resolve_join_scalar_keys_no_leak_witness :
    ∃ js res jn st2,
      det_join_schema
        [(str "id", .int32), (str "v", .string), (str "_POLARS_TMP_0", .int64)]
        [(str "_POLARS_TMP_x", .boolean), (str "idr", .int64), (str "w", .float64)]
        [{ node := 2, output_name := str "_POLARS_TMP_0" }]
        [{ node := 1, output_name := str "idr" }]
        { how := .inner, coalesce := .keepColumns, validation := .manyToMany } = .ok js ∧
      resolve_join 0 1 [.literal .int64] [.column (str "idr")]
        { how := .inner, coalesce := .keepColumns, validation := .manyToMany }
        { ea := [], lp := [.dataframeScan [(str "id", .int32), (str "v", .string)],
          .dataframeScan [(str "_POLARS_TMP_x", .boolean), (str "idr", .int64),
            (str "w", .float64)]] } = (.ok (res, jn), st2, []) ∧
      (∀ n ∈ (st2.lp.schema_of res).names, polarsTmpMark.isPrefixOf n = false) ∧
      (∀ i : Nat, get_tmp_name i ∉ (st2.lp.schema_of res).names) :=
  resolve_join_scalar_keys_no_leak (by rfl) (by rfl) (by rfl) (by rfl) (by rfl) (by rfl) (by rfl)

/-! # Claim C10: the projection keeps exactly the unmarked join-schema columns -/

/-- C10: when scalar keys were materialized, the wrapping projection keeps
exactly the join-schema columns whose names do not start with the private
temporary marker; consequently any join-schema column whose name starts
with that marker — including one that pre-existed in an input and was
never a synthetic key column — is dropped from the result handle's
schema. -/
theorem projection_keeps_exactly_unmarked_columns
    {input_left input_right : Nat} {left_on right_on : List Expr}
    {options opts1 : JoinOptionsIR} {st : PlanState} {warns : List PlStr}
    {lirs rirs l2 r2 l3 r3 awl awr : List ExprIR} {il2 ir2 : Nat}
    {sl2 sr2 : Schema} {ea1 ea2 ea3 ea4 : ExprArena} {lp3 : LpArena}
    (hcs : checkShape left_on right_on options (st.lp.schema_of input_left)
      (st.lp.schema_of input_right) = .ok (opts1, warns))
    (hrl : resolveKeys left_on (st.lp.schema_of input_left) st.ea = (.ok lirs, ea1))
    (hrr : resolveKeys right_on (st.lp.schema_of input_right) ea1 = (.ok rirs, ea2))
    (hdc : dupCheck (!opts1.how.isIEJoin) lirs rirs = .ok ())
    (hms : materializeScalars lirs rirs input_left input_right
      (st.lp.schema_of input_left) (st.lp.schema_of input_right) ea2 st.lp =
      (.ok (l2, r2, il2, ir2, sl2, sr2, true), ea3, lp3))
    (hck : coerceKeys (opts1.should_coalesce && opts1.how == JoinType.full) sl2 sr2 l2 r2 ea3 =
      (.ok (l3, r3, awl, awr), ea4))
    (hew : (all_elementwise l3 ea4 && all_elementwise r3 ea4) = true) :
    ∃ js res jn st2,
      det_join_schema sl2 sr2 l3 r3 opts1 = .ok js ∧
      resolve_join input_left input_right left_on right_on options st =
        (.ok (res, jn), st2, warns) ∧
      (st2.lp.schema_of res).names =
        (js.names.filter fun n => !polarsTmpMark.isPrefixOf n) ∧
      (∀ n ∈ js.names, polarsTmpMark.isPrefixOf n = true →
        n ∉ (st2.lp.schema_of res).names) := by
  rcases resolve_join_scalars_shape input_left input_right left_on right_on options opts1 st
    warns lirs rirs l2 r2 l3 r3 awl awr il2 ir2 sl2 sr2 ea1 ea2 ea3 ea4 lp3
    hcs hrl hrr hdc hms hck hew with ⟨js, res, jn, st2, hjs, hres, hnames⟩
  refine ⟨js, res, jn, st2, hjs, hres, hnames, ?_⟩
  intro n hn hmark hmem
  rw [hnames] at hmem
  have := (List.mem_filter.mp hmem).2
  rw [hmark] at this
  cases this

/-- C10 witness: with a pre-existing right-table column named with the
private marker (never a synthetic key) and a literal scalar left key, the
result schema is the marker-filtered join schema, so the pre-existing
marker-named column is dropped as well. -/
theorem projection_keeps_exactly_unmarked_columns_witness :
    ∃ js res jn st2,
      det_join_schema
        [(str "id", .int32), (str "v", .string), (str "_POLARS_TMP_0", .int64)]
        [(str "_POLARS_TMP_x", .boolean), (str "idr", .int64), (str "w", .float64)]
        [{ node := 2, output_name := str "_POLARS_TMP_0" }]
        [{ node := 1, output_name := str "idr" }]
        { how := .left, coalesce := .keepColumns, validation := .manyToMany } = .ok js ∧
      resolve_join 0 1 [.literal .int64] [.column (str "idr")]
        { how := .left, coalesce := .keepColumns, validation := .manyToMany }
        { ea := [], lp := [.dataframeScan [(str "id", .int32), (str "v", .string)],
          .dataframeScan [(str "_POLARS_TMP_x", .boolean), (str "idr", .int64),
            (str "w", .float64)]] } = (.ok (res, jn), st2, []) ∧
      (st2.lp.schema_of res).names =
        (js.names.filter fun n => !polarsTmpMark.isPrefixOf n) ∧
      (∀ n ∈ js.names, polarsTmpMark.isPrefixOf n = true →
        n ∉ (st2.lp.schema_of res).names) :=
  projection_keeps_exactly_unmarked_columns
    (by rfl) (by rfl) (by rfl) (by rfl) (by rfl) (by rfl) (by rfl)
